import Mathlib

/-!
Shallow embedding of the `lrutrack` repository: the LRU-Tracker module
(`lrutrack.c`, shipped here as `src/unnamed/part_001`) and the
per-bucket sized-LRU cache, variant v1 (first half of `src/slru.c`).

Modelling conventions:
* `uint32_t` values are `Nat` with explicit reduction modulo `2^32`
  (`u32`) wherever the C arithmetic can wrap; the all-ones sentinel
  `UINT32_MAX` is `NONE`.
* keys are byte lists (`List Nat`, each entry taken mod 256 where the
  C code reads bytes); the C `key`/`key_length` pair is one list, and
  `cmp_keys` (length comparison plus `memcmp`) is list equality.
* array reads out of bounds yield a default value and writes out of
  bounds are no-ops; on the one path where the claims hinge on an
  out-of-bounds access (`slru_evict_oldest`, whose own asserts
  document `lru_tail < hash_table_size` and
  `new_tail < hash_table_size`), the embedding returns `Option.none`
  instead, mirroring the undefined behaviour of the C code there.
  Chain walks are fuelled; exhausted fuel (only possible on states the
  code's invariants exclude) is also `Option.none`.
* allocation failure is modelled by boolean parameters (`a1` for the
  item-buffer allocation, `a2` for the key-byte allocation); the
  contents of freshly malloc'ed, uninitialized memory are an explicit
  `junk` parameter.
-/

namespace Lru

def NONE : Nat := 4294967295

def U32 : Nat := 4294967296

def u32 (x : Nat) : Nat := x % U32

/-- Read of a `uint32_t` array entry; out of bounds yields the sentinel. -/
def aget (a : Array Nat) (i : Nat) : Nat := a.getD i NONE

/-- Write of an array entry; out of bounds is a no-op. -/
def aset {α : Type} (a : Array α) (i : Nat) (v : α) : Array α :=
  if h : i < a.size then a.set ⟨i, h⟩ v else a

--
-- MurmurHash2 core, shared verbatim by `lrutrack_hash` and `slru_hash` (v1).

def mC : Nat := 1540483477

def murBody : List Nat → Nat → Nat
  | b0 :: b1 :: b2 :: b3 :: rest, h =>
    let k := (b0 % 256) ||| ((b1 % 256) <<< 8) ||| ((b2 % 256) <<< 16) |||
      ((b3 % 256) <<< 24)
    let k := u32 (k * mC)
    let k := k ^^^ (k >>> 24)
    let k := u32 (k * mC)
    let h := u32 (h * mC)
    let h := h ^^^ k
    murBody rest h
  | [b0, b1, b2], h =>
    let h := h ^^^ ((b2 % 256) <<< 16)
    let h := h ^^^ ((b1 % 256) <<< 8)
    let h := h ^^^ (b0 % 256)
    u32 (h * mC)
  | [b0, b1], h =>
    let h := h ^^^ ((b1 % 256) <<< 8)
    let h := h ^^^ (b0 % 256)
    u32 (h * mC)
  | [b0], h =>
    let h := h ^^^ (b0 % 256)
    u32 (h * mC)
  | [], h => h

def murmur2_32 (key : List Nat) (seed : Nat) : Nat :=
  let h := u32 seed ^^^ u32 key.length
  let h := murBody key h
  let h := h ^^^ (h >>> 13)
  let h := u32 (h * mC)
  h ^^^ (h >>> 15)

/-- `lrutrack_hash`: MurmurHash2 reduced by bitwise AND with `size - 1`. -/
def lrutrack_hash (key : List Nat) (seed : Nat) (hash_table_size : Nat) : Nat :=
  murmur2_32 key seed &&& (hash_table_size - 1)

/-- `slru_hash` (v1) is textually identical to `lrutrack_hash`. -/
def slru_hash (key : List Nat) (seed : Nat) (hash_table_size : Nat) : Nat :=
  murmur2_32 key seed &&& (hash_table_size - 1)

--
-- Result codes (lrutrack.h / slru.h).

def LRUTRACK_OK : Nat := 0
def LRUTRACK_OOM : Nat := 2
def LRUTRACK_NOT_FOUND : Nat := 3

def SLRU_OK : Nat := 0
def SLRU_OOM : Nat := 2
def SLRU_NOT_FOUND : Nat := 3
def SLRU_DOESNT_FIT : Nat := 4

--
-- LRU-Tracker data model (`lrutrack_item_t`, `lrutrack_t`).

structure LItem where
  key : List Nat
  value : Nat
  next : Nat
deriving DecidableEq, Repr

def LItem.dflt : LItem := ⟨[], 0, NONE⟩

def iget (a : Array LItem) (i : Nat) : LItem := a.getD i LItem.dflt

structure Lrutrack where
  hash_table : Array Nat
  links : Array Nat
  items : Array LItem
  num_items : Nat
  hash_table_size : Nat
  lru_head : Nat
  lru_tail : Nat
  first_free : Nat
  seed : Nat
  invalid_value : Nat
deriving DecidableEq, Repr

--
-- LRU-Tracker private helpers.

/-- `lrutrack_find_index`'s loop, with fuel; `some NONE` is "not found",
`none` is a walk that outruns its fuel (excluded by the invariants). -/
def findIndexAux (items : Array LItem) (key : List Nat) :
    Nat → Nat → Option Nat
  | 0, _ => none
  | fuel + 1, iter =>
    if iter = NONE then some NONE
    else if (iget items iter).key = key then some iter
    else findIndexAux items key fuel (iget items iter).next

def lrutrack_find_index (t : Lrutrack) (key : List Nat) (hash : Nat) :
    Option Nat :=
  findIndexAux t.items key (t.num_items + 1) (aget t.hash_table hash)

/-- `lrutrack_insert_to_lru_head`. -/
def lrutrack_insert_to_lru_head (t : Lrutrack) (i : Nat) : Lrutrack :=
  if t.lru_head ≠ NONE then
    { t with
      links := aset (aset t.links (2 * t.lru_head + 0) i) (2 * i + 1) t.lru_head
      lru_head := i }
  else
    { t with lru_head := i, lru_tail := i }

/-- `lrutrack_remove_from_lru` (the LRU-Tracker version: interior unlink
writes `links[next*2+0] = prev; links[prev*2+1] = next;`). -/
def lrutrack_remove_from_lru (t : Lrutrack) (i : Nat) : Lrutrack :=
  if t.lru_head = t.lru_tail then
    { t with lru_head := NONE, lru_tail := NONE }
  else if i = t.lru_head then
    let nh := aget t.links (2 * i + 1)
    { t with
      lru_head := nh
      links := aset (aset t.links (2 * nh + 0) NONE) (2 * i + 1) NONE }
  else if i = t.lru_tail then
    let nt := aget t.links (2 * i + 0)
    { t with
      lru_tail := nt
      links := aset (aset t.links (2 * nt + 1) NONE) (2 * i + 0) NONE }
  else
    let p := aget t.links (2 * i + 0)
    let nx := aget t.links (2 * i + 1)
    { t with
      links := aset (aset (aset (aset t.links (2 * nx + 0) p) (2 * p + 1) nx)
        (2 * i + 0) NONE) (2 * i + 1) NONE }

/-- `lrutrack_move_to_lru_head` (same code in slru v1, `slru_move_to_lru_head`). -/
def lrutrack_move_to_lru_head (t : Lrutrack) (i : Nat) : Lrutrack :=
  if t.lru_head ≠ t.lru_tail then
    if i = t.lru_tail then
      let nt := aget t.links (2 * i + 0)
      { t with
        lru_tail := nt
        lru_head := i
        links := aset (aset (aset (aset t.links (2 * i + 0) NONE)
          (2 * nt + 1) NONE) (2 * t.lru_head + 0) i) (2 * i + 1) t.lru_head }
    else if i ≠ t.lru_head then
      let p := aget t.links (2 * i + 0)
      let nx := aget t.links (2 * i + 1)
      { t with
        lru_head := i
        links := aset (aset (aset (aset (aset t.links (2 * nx + 0) p)
          (2 * p + 1) nx) (2 * i + 0) NONE) (2 * i + 1) t.lru_head)
          (2 * t.lru_head + 0) i }
    else t
  else t

--
-- LRU-Tracker public operations.

/-- `lrutrack_create` on the allocation-success path.  A handle created
with `num_initial_items = 0` has an empty arena and `first_free = NONE`. -/
def lrutrack_create (hash_table_size num_initial_items hash_seed
    invalid_value : Nat) : Lrutrack :=
  { hash_table := Array.mkArray hash_table_size NONE
    links := Array.mkArray (2 * hash_table_size) NONE
    items :=
      if num_initial_items ≠ 0 then
        Array.ofFn (n := num_initial_items) fun i =>
          { key := []
            value := invalid_value
            next := if i.val + 1 < num_initial_items then i.val + 1 else NONE }
      else #[]
    num_items := num_initial_items
    hash_table_size := hash_table_size
    lru_head := NONE
    lru_tail := NONE
    first_free := if num_initial_items ≠ 0 then 0 else NONE
    seed := hash_seed
    invalid_value := invalid_value }

/-- The tail of `lrutrack_insert` after the growth block: take the first
free slot, allocate and copy the key (`a2` is that allocation's success),
set the value, update the LRU list and relink the bucket chain. -/
def lrutrackInsertCore (a2 : Bool) (t : Lrutrack) (hash : Nat)
    (key : List Nat) (value : Nat) : Nat × Lrutrack :=
  let index := t.first_free
  if a2 = false then (LRUTRACK_OOM, t)
  else
    let item := iget t.items index
    let itemKV : LItem := { item with key := key, value := value }
    let t1 := { t with items := aset t.items index itemKV }
    let t2 :=
      if aget t1.hash_table hash = NONE then lrutrack_insert_to_lru_head t1 hash
      else lrutrack_move_to_lru_head t1 hash
    let t3 := { t2 with first_free := (iget t2.items index).next }
    let itemLinked : LItem :=
      { iget t3.items index with next := aget t3.hash_table hash }
    let t4 := { t3 with items := aset t3.items index itemLinked }
    let t5 := { t4 with hash_table := aset t4.hash_table hash index }
    (LRUTRACK_OK, t5)

/-- `lrutrack_insert`.  `a1`: success of the items-buffer allocation in
the growth block, `a2`: success of the key-bytes allocation; `junk` is
the uninitialized contents of the fresh buffer in the grow-from-zero
branch (that branch sets only the `next` fields, no `memset`). -/
def lrutrack_insert (a1 a2 : Bool) (junk : Nat → LItem) (t : Lrutrack)
    (key : List Nat) (value : Nat) : Nat × Lrutrack :=
  let hash := lrutrack_hash key t.seed t.hash_table_size
  if t.first_free = NONE then
    if t.num_items = 0 then
      if a1 = false then (LRUTRACK_OOM, t)
      else
        let n := t.hash_table_size
        let t' := { t with
          items := Array.ofFn (n := n) fun i =>
            { junk i.val with next := if i.val + 1 < n then i.val + 1 else NONE }
          num_items := n
          first_free := 0 }
        lrutrackInsertCore a2 t' hash key value
    else
      if a1 = false then
        (LRUTRACK_OOM, { t with num_items := u32 (2 * t.num_items), items := #[] })
      else
        let oldn := t.num_items
        let n2 := u32 (2 * t.num_items)
        let t' := { t with
          items := Array.ofFn (n := n2) fun i =>
            if i.val < oldn then iget t.items i.val
            else
              { key := []
                value := t.invalid_value
                next := if i.val + 1 < n2 then i.val + 1 else NONE }
          num_items := n2
          first_free := oldn }
        lrutrackInsertCore a2 t' hash key value
  else
    lrutrackInsertCore a2 t hash key value

/-- The predecessor-scan loop inside `lrutrack_remove`/`slru_remove`. -/
def prevScan (items : Array LItem) (index : Nat) :
    Nat → Nat → Nat → Option Nat
  | 0, _, _ => none
  | fuel + 1, prev, iter =>
    if iter = NONE then some prev
    else if iter = index then some prev
    else prevScan items index fuel iter (iget items iter).next

/-- `lrutrack_remove`. -/
def lrutrack_remove (t : Lrutrack) (key : List Nat) :
    Option (Nat × Lrutrack) :=
  let hash := lrutrack_hash key t.seed t.hash_table_size
  match lrutrack_find_index t key hash with
  | none => none
  | some index =>
    if index = NONE then some (LRUTRACK_NOT_FOUND, t)
    else
      match prevScan t.items index (t.num_items + 1) NONE
          (aget t.hash_table hash) with
      | none => none
      | some prev =>
        let item := iget t.items index
        let t1 :=
          if prev = NONE then
            let ta := { t with hash_table := aset t.hash_table hash item.next }
            if aget ta.hash_table hash = NONE then lrutrack_remove_from_lru ta hash
            else ta
          else
            let prevUpd : LItem := { iget t.items prev with next := item.next }
            { t with items := aset t.items prev prevUpd }
        let freedItem : LItem :=
          { iget t1.items index with
            next := t1.first_free
            key := []
            value := t1.invalid_value }
        let t2 := { t1 with items := aset t1.items index freedItem }
        let t3 := { t2 with first_free := index }
        some (LRUTRACK_OK, t3)

/-- `lrutrack_use`. -/
def lrutrack_use (t : Lrutrack) (key : List Nat) :
    Option (Nat × Lrutrack) :=
  let hash := lrutrack_hash key t.seed t.hash_table_size
  match lrutrack_find_index t key hash with
  | none => none
  | some index =>
    if index = NONE then some (t.invalid_value, t)
    else
      let t1 := lrutrack_move_to_lru_head t hash
      some ((iget t1.items index).value, t1)

/-- The per-bucket eviction walk of `lrutrack_remove_all` (frees the key,
reports the value to the eviction callback, marks the slot invalid). -/
def removeAllChain (inv : Nat) : Nat → Array LItem → Nat → Array LItem
  | 0, items, _ => items
  | fuel + 1, items, iter =>
    if iter = NONE then items
    else
      let item := iget items iter
      removeAllChain inv fuel
        (aset items iter { item with key := [], value := inv }) item.next

/-- `lrutrack_remove_all`.  Note the unconditional `first_free := 0` at
the end, also taken when `num_items = 0`. -/
def lrutrack_remove_all (t : Lrutrack) : Lrutrack :=
  let items := (List.range t.hash_table_size).foldl
    (fun its b => removeAllChain t.invalid_value (t.num_items + 1) its
      (aget t.hash_table b)) t.items
  let items :=
    if t.num_items ≠ 0 then
      items.mapIdx fun i it =>
        { it with next := if i + 1 < t.num_items then i + 1 else NONE }
    else items
  { t with
    hash_table := Array.mkArray t.hash_table_size NONE
    links := Array.mkArray (2 * t.hash_table_size) NONE
    items := items
    lru_head := NONE
    lru_tail := NONE
    first_free := 0 }

--
-- SLRU v1 data model (`slru_item_t`, `slru_t`, first half of slru.c).

structure SItem where
  key : List Nat
  consumption : Nat
  value : Nat
  next : Nat
deriving DecidableEq, Repr

def SItem.dflt : SItem := ⟨[], 0, 0, NONE⟩

def sget (a : Array SItem) (i : Nat) : SItem := a.getD i SItem.dflt

structure Slru where
  hash_table : Array Nat
  links : Array Nat
  items : Array SItem
  num_items : Nat
  num_items_in_use : Nat
  hash_table_size : Nat
  lru_head : Nat
  lru_tail : Nat
  seed : Nat
  first_free : Nat
  cache_left : Nat
deriving DecidableEq, Repr

/-- Sum of `consumption` over all arena slots (free slots carry 0, the
free sentinel, so this is the sum over the in-use slots). -/
def slruConsumedTotal (s : Slru) : Nat :=
  s.items.foldl (fun acc it => acc + it.consumption) 0

--
-- SLRU v1 private helpers.

/-- `slru_find_index`'s loop, with fuel (see `findIndexAux`). -/
def findSIndexAux (items : Array SItem) (key : List Nat) :
    Nat → Nat → Option Nat
  | 0, _ => none
  | fuel + 1, iter =>
    if iter = NONE then some NONE
    else if (sget items iter).key = key then some iter
    else findSIndexAux items key fuel (sget items iter).next

def slru_find_index (s : Slru) (key : List Nat) (hash : Nat) : Option Nat :=
  findSIndexAux s.items key (s.num_items + 1) (aget s.hash_table hash)

/-- `slru_insert_to_lru_head` (same code as the LRU-Tracker's). -/
def slru_insert_to_lru_head (s : Slru) (i : Nat) : Slru :=
  if s.lru_head ≠ NONE then
    { s with
      links := aset (aset s.links (2 * s.lru_head + 0) i) (2 * i + 1) s.lru_head
      lru_head := i }
  else
    { s with lru_head := i, lru_tail := i }

/-- `slru_remove_from_lru`.  NOTE: the interior branch is transcribed as
the source has it: `links[prev*2+0] = next; links[next*2+1] = prev;`
(indices 0/1 swapped relative to `lrutrack_remove_from_lru`). -/
def slru_remove_from_lru (s : Slru) (i : Nat) : Slru :=
  if s.lru_head = s.lru_tail then
    { s with lru_head := NONE, lru_tail := NONE }
  else if i = s.lru_head then
    let nh := aget s.links (2 * i + 1)
    { s with
      lru_head := nh
      links := aset (aset s.links (2 * nh + 0) NONE) (2 * i + 1) NONE }
  else if i = s.lru_tail then
    let nt := aget s.links (2 * i + 0)
    { s with
      lru_tail := nt
      links := aset (aset s.links (2 * nt + 1) NONE) (2 * i + 0) NONE }
  else
    let p := aget s.links (2 * i + 0)
    let nx := aget s.links (2 * i + 1)
    { s with
      links := aset (aset (aset (aset s.links (2 * p + 0) nx) (2 * nx + 1) p)
        (2 * i + 0) NONE) (2 * i + 1) NONE }

/-- `slru_move_to_lru_head` (identical to `lrutrack_move_to_lru_head`). -/
def slru_move_to_lru_head (s : Slru) (i : Nat) : Slru :=
  if s.lru_head ≠ s.lru_tail then
    if i = s.lru_tail then
      let nt := aget s.links (2 * i + 0)
      { s with
        lru_tail := nt
        lru_head := i
        links := aset (aset (aset (aset s.links (2 * i + 0) NONE)
          (2 * nt + 1) NONE) (2 * s.lru_head + 0) i) (2 * i + 1) s.lru_head }
    else if i ≠ s.lru_head then
      let p := aget s.links (2 * i + 0)
      let nx := aget s.links (2 * i + 1)
      { s with
        lru_head := i
        links := aset (aset (aset (aset (aset s.links (2 * nx + 0) p)
          (2 * p + 1) nx) (2 * i + 0) NONE) (2 * i + 1) s.lru_head)
          (2 * s.lru_head + 0) i }
    else s
  else s

/-- The item-releasing walk at the end of `slru_evict_oldest`: frees each
item of the evicted bucket chain, returns its consumption to
`cache_left` and pushes the slot onto the free list. -/
def slruEvictChain : Nat → Slru → Nat → Option Slru
  | 0, _, _ => none
  | fuel + 1, s, iter =>
    if iter = NONE then some s
    else
      let item := sget s.items iter
      let freed : SItem :=
        { item with
          key := []
          consumption := 0
          next := s.first_free }
      let s' := { s with
        items := aset s.items iter freed
        num_items_in_use := (s.num_items_in_use + U32 - 1) % U32
        cache_left := u32 (s.cache_left + item.consumption)
        first_free := iter }
      slruEvictChain fuel s' item.next

/-- `slru_evict_oldest`.  The C routine reads
`hash_table_lru_links[lru_tail * 2 + 0]` and unconditionally writes
`hash_table_lru_links[new_tail * 2 + 1]`, guarded only by debug
assertions `lru_tail < hash_table_size` and
`new_tail < hash_table_size`; when either index is out of range
(in particular when it is the `NONE` sentinel) the access is out of
bounds and the embedding returns `none`. -/
def slru_evict_oldest (s : Slru) : Option Slru :=
  if s.lru_tail < s.hash_table_size then
    let new_tail := aget s.links (2 * s.lru_tail + 0)
    if new_tail < s.hash_table_size then
      let s1 := { s with
        links := aset (aset s.links (2 * s.lru_tail + 0) NONE)
          (2 * new_tail + 1) NONE }
      let iter := aget s1.hash_table s1.lru_tail
      let s2 := { s1 with hash_table := aset s1.hash_table s1.lru_tail NONE }
      let s3 :=
        if s2.lru_head = s2.lru_tail then
          { s2 with lru_head := new_tail, lru_tail := new_tail }
        else s2
      let s4 := { s3 with lru_tail := new_tail }
      slruEvictChain (s4.num_items + 1) s4 iter
    else none
  else none

/-- The budget loop at the top of `slru_insert`:
`while (cache_left < consumption) slru_evict_oldest(...)`.
(`slru_evict_oldest` can only return `SLRU_OK`, so the `break` in the C
loop is dead; the loop leaves only when the budget suffices or the code
runs into the unguarded accesses modelled as `none`.) -/
def slruEvictLoop (consumption : Nat) : Nat → Slru → Option Slru
  | 0, _ => none
  | fuel + 1, s =>
    if s.cache_left < consumption then
      match slru_evict_oldest s with
      | none => none
      | some s' => slruEvictLoop consumption fuel s'
    else some s

--
-- SLRU v1 public operations.

/-- `slru_create` on the allocation-success path (the v1 handle never
assigns `seed`, leaving the `memset` zero). -/
def slru_create (hash_table_size num_initial_items cache_size : Nat) : Slru :=
  { hash_table := Array.mkArray hash_table_size NONE
    links := Array.mkArray (2 * hash_table_size) NONE
    items :=
      if num_initial_items ≠ 0 then
        Array.ofFn (n := num_initial_items) fun i =>
          { key := []
            consumption := 0
            value := 0
            next := if i.val + 1 < num_initial_items then i.val + 1 else NONE }
      else #[]
    num_items := num_initial_items
    num_items_in_use := 0
    hash_table_size := hash_table_size
    lru_head := NONE
    lru_tail := NONE
    seed := 0
    first_free := if num_initial_items ≠ 0 then 0 else NONE
    cache_left := cache_size }

/-- The tail of `slru_insert` after the budget and growth blocks. -/
def slruInsertCore (a2 : Bool) (s : Slru) (hash : Nat) (key : List Nat)
    (value consumption : Nat) : Nat × Slru :=
  let index := s.first_free
  if a2 = false then (SLRU_OOM, s)
  else
    let item := sget s.items index
    let itemKV : SItem :=
      { item with key := key, value := value, consumption := consumption }
    let s1 := { s with items := aset s.items index itemKV }
    let s2 :=
      if aget s1.hash_table hash = NONE then slru_insert_to_lru_head s1 hash
      else slru_move_to_lru_head s1 hash
    let s3 := { s2 with first_free := (sget s2.items index).next }
    let itemLinked : SItem :=
      { sget s3.items index with next := aget s3.hash_table hash }
    let s4 := { s3 with items := aset s3.items index itemLinked }
    let s5 := { s4 with hash_table := aset s4.hash_table hash index }
    let s6 := { s5 with num_items_in_use := u32 (s5.num_items_in_use + 1) }
    (SLRU_OK, s6)

/-- `slru_insert` (v1).  Mirrors the C control flow: evict until the
budget suffices, subtract the consumption from `cache_left`, then grow
the arena on demand and link the new item in.  `none` models the
undefined behaviour reached through `slru_evict_oldest`'s unguarded
link-array accesses. -/
def slru_insert (a1 a2 : Bool) (junk : Nat → SItem) (s : Slru)
    (key : List Nat) (value consumption : Nat) : Option (Nat × Slru) :=
  match slruEvictLoop consumption (s.hash_table_size + 2) s with
  | none => none
  | some s =>
    if s.cache_left < consumption then some (SLRU_DOESNT_FIT, s)
    else
      let s := { s with cache_left := s.cache_left - consumption }
      let hash := slru_hash key s.seed s.hash_table_size
      if s.first_free = NONE then
        if s.num_items = 0 then
          if a1 = false then some (SLRU_OOM, s)
          else
            let n := s.hash_table_size
            let s' := { s with
              items := Array.ofFn (n := n) fun i =>
                { junk i.val with
                  next := if i.val + 1 < n then i.val + 1 else NONE }
              num_items := n
              first_free := 0 }
            some (slruInsertCore a2 s' hash key value consumption)
        else
          if a1 = false then
            some (SLRU_OOM,
              { s with num_items := u32 (2 * s.num_items), items := #[] })
          else
            let oldn := s.num_items
            let n2 := u32 (2 * s.num_items)
            let s' := { s with
              items := Array.ofFn (n := n2) fun i =>
                if i.val < oldn then sget s.items i.val
                else
                  { key := []
                    consumption := 0
                    value := 0
                    next := if i.val + 1 < n2 then i.val + 1 else NONE }
              num_items := n2
              first_free := oldn }
            some (slruInsertCore a2 s' hash key value consumption)
      else
        some (slruInsertCore a2 s hash key value consumption)

/-- The predecessor-scan loop of `slru_remove` (same shape as
`prevScan`, over `SItem`s). -/
def sPrevScan (items : Array SItem) (index : Nat) :
    Nat → Nat → Nat → Option Nat
  | 0, _, _ => none
  | fuel + 1, prev, iter =>
    if iter = NONE then some prev
    else if iter = index then some prev
    else sPrevScan items index fuel iter (sget items iter).next

/-- `slru_remove` (v1), including the call into the swapped-index
`slru_remove_from_lru` when the bucket chain becomes empty. -/
def slru_remove (s : Slru) (key : List Nat) : Option (Nat × Slru) :=
  let hash := slru_hash key s.seed s.hash_table_size
  match slru_find_index s key hash with
  | none => none
  | some index =>
    if index = NONE then some (SLRU_NOT_FOUND, s)
    else
      match sPrevScan s.items index (s.num_items + 1) NONE
          (aget s.hash_table hash) with
      | none => none
      | some prev =>
        let item := sget s.items index
        let s1 :=
          if prev = NONE then
            let sa := { s with hash_table := aset s.hash_table hash item.next }
            if aget sa.hash_table hash = NONE then slru_remove_from_lru sa hash
            else sa
          else
            let prevUpd : SItem := { sget s.items prev with next := item.next }
            { s with items := aset s.items prev prevUpd }
        let freedItem : SItem :=
          { sget s1.items index with
            next := s1.first_free
            key := []
            consumption := 0 }
        let s2 := { s1 with items := aset s1.items index freedItem }
        let s3 := { s2 with
          first_free := index
          cache_left := u32 (s2.cache_left + item.consumption)
          num_items_in_use := (s2.num_items_in_use + U32 - 1) % U32 }
        some (SLRU_OK, s3)

/-- `slru_fetch` (v1). -/
def slru_fetch (s : Slru) (key : List Nat) (invalid_value : Nat) :
    Option (Nat × Slru) :=
  let hash := slru_hash key s.seed s.hash_table_size
  match slru_find_index s key hash with
  | none => none
  | some index =>
    if index = NONE then some (invalid_value, s)
    else
      let s1 := slru_move_to_lru_head s hash
      some ((sget s1.items index).value, s1)

/-- The per-bucket eviction walk of `slru_remove_all` (reports values,
frees keys, returns each consumption to `cache_left`; the item records
themselves are wiped by the `memset` that follows). -/
def slruRemoveAllChain : Nat → Slru → Nat → Slru
  | 0, s, _ => s
  | fuel + 1, s, iter =>
    if iter = NONE then s
    else
      let item := sget s.items iter
      slruRemoveAllChain fuel
        { s with cache_left := u32 (s.cache_left + item.consumption) }
        item.next

/-- `slru_remove_all` (v1).  Transcribed as the source has it: the
bucket table, the link array and the item records are wiped and the
free list is rebuilt, but `lru_head` and `lru_tail` are NOT reset
(compare `lrutrack_remove_all`); `first_free` is set to 0
unconditionally.  The free-list rebuild loop bound `num_items - 1` is
computed in `uint32_t`, so for `num_items = 0` every write of the loop
lands out of bounds (modelled by the in-bounds-only `mapIdx`). -/
def slru_remove_all (s : Slru) : Slru :=
  let s' := (List.range s.hash_table_size).foldl
    (fun acc b => slruRemoveAllChain (acc.num_items + 1) acc
      (aget acc.hash_table b)) s
  let wiped := (Array.mkArray s'.items.size SItem.dflt).mapIdx fun i _ =>
    { SItem.dflt with
      next := if i + 1 < s'.num_items then (i : Nat) + 1 else NONE }
  { s' with
    hash_table := Array.mkArray s'.hash_table_size NONE
    links := Array.mkArray (2 * s'.hash_table_size) NONE
    items := wiped
    first_free := 0
    num_items_in_use := 0 }

--
-- Specification-side definitions used by the general theorems.

/-- The trace of `lrutrack_find_index`'s walk: the list of arena indices
the loop inspects (the hit included, when there is one) together with
the loop's result (`NONE` for "not found").  `findTraceAux items key
fuel iter = some (L, r)` exactly when `findIndexAux` terminates within
`fuel` with result `r`, visiting the slots `L` in order. -/
def findTraceAux (items : Array LItem) (key : List Nat) :
    Nat → Nat → Option (List Nat × Nat)
  | 0, _ => none
  | fuel + 1, iter =>
    if iter = NONE then some ([], NONE)
    else if (iget items iter).key = key then some ([iter], iter)
    else
      match findTraceAux items key fuel (iget items iter).next with
      | none => none
      | some (l, r) => some (iter :: l, r)

/-- Size and bound consistency of an LRU-Tracker state (the parts of
`lrutrack_check_internal_state` about array sizes, `first_free`, and
the realistic magnitude bounds that keep the `uint32_t` arithmetic of
the growth path below the wrap-around). -/
def SizeOk (t : Lrutrack) : Prop :=
  t.hash_table.size = t.hash_table_size ∧
  t.links.size = 2 * t.hash_table_size ∧
  t.items.size = t.num_items ∧
  1 ≤ t.hash_table_size ∧
  t.hash_table_size < 2 ^ 31 ∧
  t.num_items < 2 ^ 31 ∧
  (t.first_free = NONE ∨ t.first_free < t.num_items)

/-- Well-formedness of the per-bucket LRU doubly-linked list (the
invariants `lrutrack_check_internal_state` asserts, plus the local
mutual-consistency facts the assertions' traversal establishes):
endpoint validity, endpoint links are `NONE`, link entries are `NONE`
or bucket indices, no self-links, prev/next mutual consistency, empty
buckets are unlisted, non-empty buckets are listed, and a singleton
list contains the only non-empty bucket. -/
def LruOk (t : Lrutrack) : Prop :=
  (t.lru_head = NONE ∨ t.lru_head < t.hash_table_size) ∧
  (t.lru_tail = NONE ∨ t.lru_tail < t.hash_table_size) ∧
  (t.lru_head ≠ NONE → aget t.links (2 * t.lru_head) = NONE) ∧
  (t.lru_tail ≠ NONE → aget t.links (2 * t.lru_tail + 1) = NONE) ∧
  (∀ j, j < 2 * t.hash_table_size →
    aget t.links j = NONE ∨ aget t.links j < t.hash_table_size) ∧
  (∀ b, b < t.hash_table_size →
    aget t.links (2 * b) ≠ b ∧ aget t.links (2 * b + 1) ≠ b) ∧
  (∀ b, b < t.hash_table_size → aget t.links (2 * b + 1) ≠ NONE →
    aget t.links (2 * aget t.links (2 * b + 1)) = b) ∧
  (∀ b, b < t.hash_table_size → aget t.links (2 * b) ≠ NONE →
    aget t.links (2 * aget t.links (2 * b) + 1) = b) ∧
  (∀ b, b < t.hash_table_size → aget t.hash_table b = NONE →
    aget t.links (2 * b) = NONE ∧ aget t.links (2 * b + 1) = NONE ∧
    t.lru_head ≠ b ∧ t.lru_tail ≠ b) ∧
  (∀ b, b < t.hash_table_size → aget t.hash_table b ≠ NONE →
    (b = t.lru_head ∨ aget t.links (2 * b) ≠ NONE) ∧
    (b = t.lru_tail ∨ aget t.links (2 * b + 1) ≠ NONE)) ∧
  (t.lru_head = t.lru_tail → ∀ b, b < t.hash_table_size →
    aget t.hash_table b ≠ NONE → b = t.lru_head)

/-- Full structural well-formedness of an LRU-Tracker state. -/
def Wf (t : Lrutrack) : Prop := SizeOk t ∧ LruOk t

instance (t : Lrutrack) : Decidable (SizeOk t) := by
  unfold SizeOk; infer_instance

set_option synthInstance.maxSize 2048 in
set_option synthInstance.maxHeartbeats 1000000 in
instance (t : Lrutrack) : Decidable (LruOk t) := by
  unfold LruOk; infer_instance

instance (t : Lrutrack) : Decidable (Wf t) := by
  unfold Wf; infer_instance

--
-- Concrete fixtures.  `sjunk0`/`ljunk0` stand for fresh memory whose
-- contents are never observed on the runs below (no grow-from-zero
-- branch is taken, except where a dedicated junk function is supplied).

def sjunk0 : Nat → SItem := fun _ => SItem.dflt

def ljunk0 : Nat → LItem := fun _ => LItem.dflt

/-- After `slru_create(4, 4, 100)`, insert the keys `[0]`, `[1]`, `[3]`
(consumption 1 each); with seed 0 they land in buckets 1, 0 and 2, so
the LRU list is bucket 2 (head) → bucket 0 → bucket 1 (tail) and
bucket 0 is interior. -/
def c2pre : Slru :=
  let s0 := slru_create 4 4 100
  let s1 := ((slru_insert true true sjunk0 s0 [0] 10 1).getD (0, s0)).2
  let s2 := ((slru_insert true true sjunk0 s1 [1] 11 1).getD (0, s1)).2
  ((slru_insert true true sjunk0 s2 [3] 12 1).getD (0, s2)).2

/-- The state after removing key `[1]` (the only item of the interior
bucket 0) from `c2pre`. -/
def c2post : Slru := ((slru_remove c2pre [1]).getD (0, c2pre)).2

/-- A cache of size 1 holding one item of consumption 1 (key `[0]`,
bucket 1): the LRU list is the single bucket 1. -/
def c3mid : Slru :=
  let s0 := slru_create 2 2 1
  ((slru_insert true true sjunk0 s0 [0] 5 1).getD (0, s0)).2

/-- A cache of size 10 holding one item (key `[0]`, bucket 1). -/
def c4pre : Slru :=
  let s0 := slru_create 2 2 10
  ((slru_insert true true sjunk0 s0 [0] 7 1).getD (0, s0)).2

/-- An LRU-Tracker with a one-slot arena holding key `[1]` ↦ 7
(`invalid_value = 0`); its free list is empty, so the next insert takes
the arena-doubling branch. -/
def c5pre : Lrutrack :=
  (lrutrack_insert true true ljunk0 (lrutrack_create 2 1 0 0) [1] 7).2

/-- The state `c5pre` leaves behind when an insert of key `[2]` hits an
allocation failure of the doubled items buffer. -/
def c5post : Lrutrack := (lrutrack_insert false true ljunk0 c5pre [2] 8).2

/-- Uninitialized-memory contents for the grow-from-zero branch: every
junk slot carries value 5 (an arbitrary bit pattern different from the
`invalid_value` 0 of the handle below). -/
def junk6 : Nat → LItem := fun _ => ⟨[], 5, 0⟩

/-- First insert into a handle created with `num_initial_items = 0`
(`hash_table_size = 4`, `invalid_value = 0`): takes the grow-from-zero
branch of `lrutrack_insert`, which allocates the items buffer without
`memset` and initializes only the `next` fields. -/
def c6res : Nat × Lrutrack :=
  lrutrack_insert true true junk6 (lrutrack_create 4 0 0 0) [1] 7

/-- `lrutrack_remove_all` applied to a handle created with
`num_initial_items = 0` before any insert (arena has zero slots). -/
def c10post : Lrutrack := lrutrack_remove_all (lrutrack_create 1 0 0 0)

--
-- Claim theorems (code_bug evaluations).

/-- C1: refuted as stated.  On an SLRU created with `cache_size = 10`, an
insert of consumption 4 whose key-byte allocation fails returns
`SLRU_OOM` having already executed `cache_left -= consumption`, so
after the operation returns, the sum of `consumption` over the arena
slots plus `cache_left` is 6, not the configured `cache_size` 10 (the
module's own debug check `consumed_total + cache_left ==
debug_cache_size` fails on the next operation). -/
theorem slru_consumption_invariant_broken_on_oom :
    (slru_insert true false sjunk0 (slru_create 2 2 10) [1] 7 4).map
        (fun p => (p.1, slruConsumedTotal p.2 + p.2.cache_left)) =
      some (SLRU_OOM, 6) := by decide

/-- C2: refuted for the SLRU (v1) module.  Starting from `c2pre` (LRU
list bucket 2 → bucket 0 → bucket 1), removing the sole item of the
interior bucket 0 succeeds and empties that bucket, but the swapped
interior unlink of `slru_remove_from_lru` leaves the head bucket 2 with
predecessor 1 (violating the module's own always-on assertion
`hash_table_lru_links[lru_head * 2 + 0] == UINT32_MAX`) and successor
still 0 (the removed, now-empty bucket), and the tail bucket 1 with
successor 2 and predecessor still 0 — instead of linking the former
neighbours 2 and 1 to each other (`links[2*2+1] = 1`, `links[2*1+0] = 2`,
which is what `lrutrack_remove_from_lru` produces). -/
theorem slru_interior_unlink_corrupts_lru_links :
    (slru_remove c2pre [1]).map Prod.fst = some SLRU_OK ∧
    c2pre.lru_head = 2 ∧ c2pre.lru_tail = 1 ∧
    aget c2pre.links (2 * 2 + 1) = 0 ∧ aget c2pre.links (2 * 0 + 1) = 1 ∧
    aget c2post.hash_table 0 = NONE ∧
    c2post.lru_head = 2 ∧ c2post.lru_tail = 1 ∧
    aget c2post.links (2 * 2 + 0) = 1 ∧
    aget c2post.links (2 * 2 + 1) = 0 ∧
    aget c2post.links (2 * 1 + 1) = 2 ∧
    aget c2post.links (2 * 1 + 0) = 0 := by decide

/-- C3: refuted as stated.  Inserting an item of consumption 2 into an
empty SLRU of `cache_size = 1` makes the budget loop call
`slru_evict_oldest` with `lru_tail = NONE`, which indexes the LRU link
array at `lru_tail * 2 + 0` out of range (modelled `none`) instead of
returning `SLRU_DOESNT_FIT`; and even a fitting insert (consumption 1
into `c3mid`) evicts the only listed bucket, after which
`slru_evict_oldest` writes `links[new_tail * 2 + 1]` with
`new_tail = NONE` — the out-of-range branch is reachable. -/
theorem slru_insert_eviction_indexes_none_sentinel :
    slru_insert true true sjunk0 (slru_create 2 2 1) [1] 5 2 = none ∧
    slru_insert true true sjunk0 c3mid [1] 6 1 = none ∧
    (slru_insert true true sjunk0 (slru_create 2 2 1) [0] 5 1).map Prod.fst =
      some SLRU_OK := by decide

/-- C4: refuted for the SLRU (v1) module.  After one insert (key `[0]`,
bucket 1) and `slru_remove_all`, the bucket table is all-empty and the
link array cleared, but `lru_head` and `lru_tail` still name bucket 1 —
they are not reset to the `NONE` sentinel (contrast
`lrutrack_remove_all`). -/
theorem slru_remove_all_leaves_lru_head :
    (∀ b, b < 2 → aget (slru_remove_all c4pre).hash_table b = NONE) ∧
    (slru_remove_all c4pre).lru_head = 1 ∧
    (slru_remove_all c4pre).lru_tail = 1 ∧
    (slru_remove_all c4pre).lru_head ≠ NONE := by decide

/-- C5: refuted as stated.  On `c5pre` (arena of one slot holding
`[1] ↦ 7`), an insert whose arena-doubling allocation fails returns
`LRUTRACK_OOM`, but the handle is left with `num_items` doubled to 2
and a null items buffer: the pre-call binding `[1] ↦ 7` is no longer
reachable (`lrutrack_use` now yields the invalid value 0 where it
yielded 7 before the call). -/
theorem lrutrack_insert_growth_oom_clobbers_arena :
    (lrutrack_use c5pre [1]).map Prod.fst = some 7 ∧
    (lrutrack_insert false true ljunk0 c5pre [2] 8).1 = LRUTRACK_OOM ∧
    c5post.num_items = 2 ∧ c5post.items = #[] ∧
    (lrutrack_use c5post [1]).map Prod.fst = some 0 := by decide

/-- C6: refuted as stated.  The grow-from-zero branch does grow the
arena from capacity 0 to `hash_table_size` (4) with the first new slot
becoming `first_free` and the appended slots chained as the free list,
but the appended range is NOT zero-initialized and the free sentinel is
NOT set: with junk contents `junk6`, after the first insert the head of
the free list (slot 1) carries value 5 ≠ `invalid_value` (the code's
own assertion `item->value == t->invalid_value` on slot allocation, and
`lrutrack_destroy`'s free-slot scan, read exactly these uninitialized
fields). -/
theorem lrutrack_zero_growth_leaves_junk_values :
    c6res.1 = LRUTRACK_OK ∧
    c6res.2.num_items = 4 ∧
    c6res.2.first_free = 1 ∧
    (iget c6res.2.items 1).value = 5 ∧
    c6res.2.invalid_value = 0 ∧
    (iget c6res.2.items 1).value ≠ c6res.2.invalid_value := by decide

/-- C10: refuted as stated.  `lrutrack_remove_all` on a handle created
with `num_initial_items = 0` and no inserts sets `first_free := 0`
unconditionally while the arena still has zero slots, so `first_free`
is neither the `NONE` sentinel nor a valid arena index — the function's
own closing `lrutrack_check_internal_state` assertion
`first_free == UINT32_MAX || first_free < num_items` fails. -/
theorem remove_all_first_free_out_of_range :
    c10post.first_free = 0 ∧ c10post.num_items = 0 ∧
    ¬ (c10post.first_free = NONE ∨ c10post.first_free < c10post.num_items) := by
  decide

--
-- Basic array lemmas.

theorem size_aset {α : Type} (a : Array α) (i : Nat) (v : α) :
    (aset a i v).size = a.size := by
  unfold aset; split <;> simp

theorem getD_aset {α : Type} (a : Array α) (i j : Nat) (v d : α) :
    (aset a i v).getD j d = if i = j ∧ i < a.size then v else a.getD j d := by
  unfold aset
  split
  · rename_i hi
    by_cases hj : j < a.size
    · simp only [Array.getD, Array.size_set, hj, dif_pos, Array.get_eq_getElem,
        Array.getElem_set, hi, and_true]
    · simp only [Array.getD, Array.size_set, hj, dif_neg]
      have : ¬ (i = j ∧ i < a.size) := by rintro ⟨rfl, hcon⟩; exact hj hcon
      simp [this]
  · rename_i hi
    have : ¬ (i = j ∧ i < a.size) := by rintro ⟨rfl, hcon⟩; exact hi hcon
    simp [this]

theorem aget_aset (a : Array Nat) (i j v : Nat) :
    aget (aset a i v) j = if i = j ∧ i < a.size then v else aget a j :=
  getD_aset a i j v NONE

theorem iget_aset (a : Array LItem) (i j : Nat) (v : LItem) :
    iget (aset a i v) j = if i = j ∧ i < a.size then v else iget a j :=
  getD_aset a i j v LItem.dflt

theorem aget_aset_ne (a : Array Nat) (i j v : Nat) (hij : i ≠ j) :
    aget (aset a i v) j = aget a j := by
  rw [aget_aset]; simp [hij]

theorem iget_aset_ne (a : Array LItem) (i j : Nat) (v : LItem) (hij : i ≠ j) :
    iget (aset a i v) j = iget a j := by
  rw [iget_aset]; simp [hij]

theorem aget_aset_eq (a : Array Nat) (i v : Nat) (hi : i < a.size) :
    aget (aset a i v) i = v := by
  rw [aget_aset]; simp [hi]

theorem iget_aset_eq (a : Array LItem) (i : Nat) (v : LItem) (hi : i < a.size) :
    iget (aset a i v) i = v := by
  rw [iget_aset]; simp [hi]

/-- The hash is always a valid bucket index (bitwise AND with
`size - 1` is bounded by `size - 1`). -/
theorem lrutrack_hash_lt (key : List Nat) (seed n : Nat) (hn : 1 ≤ n) :
    lrutrack_hash key seed n < n :=
  lt_of_le_of_lt Nat.and_le_right (by omega)

--
-- Field-preservation lemmas for the LRU-list helpers (they touch only
-- `links`, `lru_head`, `lru_tail`).

theorem itlh_items (t : Lrutrack) (i : Nat) :
    (lrutrack_insert_to_lru_head t i).items = t.items := by
  unfold lrutrack_insert_to_lru_head
  split <;> rfl

theorem itlh_hash_table (t : Lrutrack) (i : Nat) :
    (lrutrack_insert_to_lru_head t i).hash_table = t.hash_table := by
  unfold lrutrack_insert_to_lru_head
  split <;> rfl

theorem itlh_num_items (t : Lrutrack) (i : Nat) :
    (lrutrack_insert_to_lru_head t i).num_items = t.num_items := by
  unfold lrutrack_insert_to_lru_head
  split <;> rfl

theorem itlh_hash_table_size (t : Lrutrack) (i : Nat) :
    (lrutrack_insert_to_lru_head t i).hash_table_size = t.hash_table_size := by
  unfold lrutrack_insert_to_lru_head
  split <;> rfl

theorem itlh_first_free (t : Lrutrack) (i : Nat) :
    (lrutrack_insert_to_lru_head t i).first_free = t.first_free := by
  unfold lrutrack_insert_to_lru_head
  split <;> rfl

theorem itlh_seed (t : Lrutrack) (i : Nat) :
    (lrutrack_insert_to_lru_head t i).seed = t.seed := by
  unfold lrutrack_insert_to_lru_head
  split <;> rfl

theorem itlh_invalid_value (t : Lrutrack) (i : Nat) :
    (lrutrack_insert_to_lru_head t i).invalid_value = t.invalid_value := by
  unfold lrutrack_insert_to_lru_head
  split <;> rfl

theorem mtlh_items (t : Lrutrack) (i : Nat) :
    (lrutrack_move_to_lru_head t i).items = t.items := by
  unfold lrutrack_move_to_lru_head
  split
  · split
    · rfl
    · split <;> rfl
  · rfl

theorem mtlh_hash_table (t : Lrutrack) (i : Nat) :
    (lrutrack_move_to_lru_head t i).hash_table = t.hash_table := by
  unfold lrutrack_move_to_lru_head
  split
  · split
    · rfl
    · split <;> rfl
  · rfl

theorem mtlh_num_items (t : Lrutrack) (i : Nat) :
    (lrutrack_move_to_lru_head t i).num_items = t.num_items := by
  unfold lrutrack_move_to_lru_head
  split
  · split
    · rfl
    · split <;> rfl
  · rfl

theorem mtlh_hash_table_size (t : Lrutrack) (i : Nat) :
    (lrutrack_move_to_lru_head t i).hash_table_size = t.hash_table_size := by
  unfold lrutrack_move_to_lru_head
  split
  · split
    · rfl
    · split <;> rfl
  · rfl

theorem mtlh_first_free (t : Lrutrack) (i : Nat) :
    (lrutrack_move_to_lru_head t i).first_free = t.first_free := by
  unfold lrutrack_move_to_lru_head
  split
  · split
    · rfl
    · split <;> rfl
  · rfl

theorem mtlh_seed (t : Lrutrack) (i : Nat) :
    (lrutrack_move_to_lru_head t i).seed = t.seed := by
  unfold lrutrack_move_to_lru_head
  split
  · split
    · rfl
    · split <;> rfl
  · rfl

theorem mtlh_invalid_value (t : Lrutrack) (i : Nat) :
    (lrutrack_move_to_lru_head t i).invalid_value = t.invalid_value := by
  unfold lrutrack_move_to_lru_head
  split
  · split
    · rfl
    · split <;> rfl
  · rfl

theorem rful_items (t : Lrutrack) (i : Nat) :
    (lrutrack_remove_from_lru t i).items = t.items := by
  unfold lrutrack_remove_from_lru
  split
  · rfl
  · split
    · rfl
    · split <;> rfl

theorem rful_hash_table (t : Lrutrack) (i : Nat) :
    (lrutrack_remove_from_lru t i).hash_table = t.hash_table := by
  unfold lrutrack_remove_from_lru
  split
  · rfl
  · split
    · rfl
    · split <;> rfl

theorem rful_num_items (t : Lrutrack) (i : Nat) :
    (lrutrack_remove_from_lru t i).num_items = t.num_items := by
  unfold lrutrack_remove_from_lru
  split
  · rfl
  · split
    · rfl
    · split <;> rfl

theorem rful_hash_table_size (t : Lrutrack) (i : Nat) :
    (lrutrack_remove_from_lru t i).hash_table_size = t.hash_table_size := by
  unfold lrutrack_remove_from_lru
  split
  · rfl
  · split
    · rfl
    · split <;> rfl

theorem rful_first_free (t : Lrutrack) (i : Nat) :
    (lrutrack_remove_from_lru t i).first_free = t.first_free := by
  unfold lrutrack_remove_from_lru
  split
  · rfl
  · split
    · rfl
    · split <;> rfl

theorem rful_seed (t : Lrutrack) (i : Nat) :
    (lrutrack_remove_from_lru t i).seed = t.seed := by
  unfold lrutrack_remove_from_lru
  split
  · rfl
  · split
    · rfl
    · split <;> rfl

theorem rful_invalid_value (t : Lrutrack) (i : Nat) :
    (lrutrack_remove_from_lru t i).invalid_value = t.invalid_value := by
  unfold lrutrack_remove_from_lru
  split
  · rfl
  · split
    · rfl
    · split <;> rfl

/-- `lrutrack_insert_to_lru_head` always installs its argument as the
new list head. -/
theorem itlh_head (t : Lrutrack) (i : Nat) :
    (lrutrack_insert_to_lru_head t i).lru_head = i := by
  unfold lrutrack_insert_to_lru_head; split <;> simp

/-- `lrutrack_move_to_lru_head` installs its argument as the new list
head whenever the argument is a listed bucket; the hypothesis is the
singleton-consistency fact from `LruOk` specialised to `i`. -/
theorem mtlh_head (t : Lrutrack) (i : Nat)
    (hsing : t.lru_head = t.lru_tail → i = t.lru_head) :
    (lrutrack_move_to_lru_head t i).lru_head = i := by
  unfold lrutrack_move_to_lru_head
  split
  · split
    · simp
    · split
      · simp
      · rename_i hne hitail hihead
        rw [not_not] at hihead
        exact hihead.symm
  · rename_i heq
    simp only [not_not] at heq
    exact (hsing heq).symm

--
-- findTrace lemmas: the trace determines the find result, is stable
-- under item changes outside the visited slots, and grows with fuel.

theorem findTraceAux_zero (items : Array LItem) (key : List Nat) (iter : Nat) :
    findTraceAux items key 0 iter = Option.none := rfl

theorem findTraceAux_find (items : Array LItem) (key : List Nat) :
    ∀ fuel iter L r, findTraceAux items key fuel iter = some (L, r) →
      findIndexAux items key fuel iter = some r := by
  intro fuel
  induction fuel with
  | zero => intro iter L r h; simp [findTraceAux] at h
  | succ n ih =>
    intro iter L r h
    simp only [findTraceAux] at h
    simp only [findIndexAux]
    by_cases h0 : iter = NONE
    · rw [if_pos h0] at h
      rw [if_pos h0]
      obtain ⟨-, hr⟩ := Prod.mk.injEq .. ▸ Option.some.inj h
      rw [hr]
    · rw [if_neg h0] at h
      rw [if_neg h0]
      by_cases h1 : (iget items iter).key = key
      · rw [if_pos h1] at h
        rw [if_pos h1]
        obtain ⟨-, hr⟩ := Prod.mk.injEq .. ▸ Option.some.inj h
        rw [hr]
      · rw [if_neg h1] at h
        rw [if_neg h1]
        cases hrec : findTraceAux items key n (iget items iter).next with
        | none => rw [hrec] at h; exact absurd h (by simp)
        | some p =>
          rw [hrec] at h
          obtain ⟨l', r'⟩ := p
          simp only at h
          obtain ⟨-, hr⟩ := Prod.mk.injEq .. ▸ Option.some.inj h
          exact hr ▸ ih (iget items iter).next l' r' hrec

theorem findTraceAux_mem_ne (items : Array LItem) (key : List Nat) :
    ∀ fuel iter L r, findTraceAux items key fuel iter = some (L, r) →
      ∀ j ∈ L, j ≠ NONE := by
  intro fuel
  induction fuel with
  | zero => intro iter L r h; simp [findTraceAux] at h
  | succ n ih =>
    intro iter L r h j hj
    simp only [findTraceAux] at h
    by_cases h0 : iter = NONE
    · rw [if_pos h0] at h
      obtain ⟨hL, -⟩ := Prod.mk.injEq .. ▸ Option.some.inj h
      rw [← hL] at hj
      simp at hj
    · rw [if_neg h0] at h
      by_cases h1 : (iget items iter).key = key
      · rw [if_pos h1] at h
        obtain ⟨hL, -⟩ := Prod.mk.injEq .. ▸ Option.some.inj h
        rw [← hL] at hj
        simp at hj
        exact hj ▸ h0
      · rw [if_neg h1] at h
        cases hrec : findTraceAux items key n (iget items iter).next with
        | none => rw [hrec] at h; exact absurd h (by simp)
        | some p =>
          obtain ⟨l', r'⟩ := p
          rw [hrec] at h
          simp only at h
          obtain ⟨hL, -⟩ := Prod.mk.injEq .. ▸ Option.some.inj h
          rw [← hL] at hj
          rcases List.mem_cons.mp hj with rfl | hj'
          · exact h0
          · exact ih (iget items iter).next l' r' hrec j hj'

theorem findTraceAux_congr (items items' : Array LItem) (key : List Nat) :
    ∀ fuel iter L r, findTraceAux items key fuel iter = some (L, r) →
      (∀ j ∈ L, iget items' j = iget items j) →
      findTraceAux items' key fuel iter = some (L, r) := by
  intro fuel
  induction fuel with
  | zero => intro iter L r h; simp [findTraceAux] at h
  | succ n ih =>
    intro iter L r h hagree
    simp only [findTraceAux] at h ⊢
    by_cases h0 : iter = NONE
    · rw [if_pos h0] at h ⊢
      exact h
    · rw [if_neg h0] at h ⊢
      by_cases h1 : (iget items iter).key = key
      · rw [if_pos h1] at h
        obtain ⟨hL, hr⟩ := Prod.mk.injEq .. ▸ Option.some.inj h
        have hmem : iter ∈ L := by rw [← hL]; simp
        have heq := hagree iter hmem
        rw [heq, if_pos h1, hL, hr]
      · rw [if_neg h1] at h
        cases hrec : findTraceAux items key n (iget items iter).next with
        | none => rw [hrec] at h; exact absurd h (by simp)
        | some p =>
          obtain ⟨l', r'⟩ := p
          rw [hrec] at h
          simp only at h
          obtain ⟨hL, hr⟩ := Prod.mk.injEq .. ▸ Option.some.inj h
          have hmem : iter ∈ L := by rw [← hL]; simp
          have heq := hagree iter hmem
          have hagree' : ∀ j ∈ l', iget items' j = iget items j := by
            intro j hj
            exact hagree j (by rw [← hL]; exact List.mem_cons_of_mem _ hj)
          have := ih (iget items iter).next l' r' hrec hagree'
          rw [heq, if_neg h1, this]
          simp [hL, hr]

theorem findTraceAux_mono (items : Array LItem) (key : List Nat) :
    ∀ fuel fuel' iter p, findTraceAux items key fuel iter = some p →
      fuel ≤ fuel' → findTraceAux items key fuel' iter = some p := by
  intro fuel
  induction fuel with
  | zero => intro fuel' iter p h; simp [findTraceAux] at h
  | succ n ih =>
    intro fuel' iter p h hle
    obtain ⟨m, rfl⟩ : ∃ m, fuel' = m + 1 := ⟨fuel' - 1, by omega⟩
    simp only [findTraceAux] at h ⊢
    by_cases h0 : iter = NONE
    · rw [if_pos h0] at h ⊢; exact h
    · rw [if_neg h0] at h ⊢
      by_cases h1 : (iget items iter).key = key
      · rw [if_pos h1] at h ⊢; exact h
      · rw [if_neg h1] at h ⊢
        cases hrec : findTraceAux items key n (iget items iter).next with
        | none => rw [hrec] at h; exact absurd h (by simp)
        | some q =>
          rw [hrec] at h
          rw [ih m (iget items iter).next q hrec (by omega)]
          exact h

theorem findTraceAux_nil (items : Array LItem) (key : List Nat)
    (fuel iter r : Nat) (h : findTraceAux items key fuel iter = some ([], r)) :
    iter = NONE ∧ r = NONE := by
  cases fuel with
  | zero => simp [findTraceAux] at h
  | succ n =>
    simp only [findTraceAux] at h
    by_cases h0 : iter = NONE
    · rw [if_pos h0] at h
      obtain ⟨-, hr⟩ := Prod.mk.injEq .. ▸ Option.some.inj h
      exact ⟨h0, hr.symm⟩
    · rw [if_neg h0] at h
      by_cases h1 : (iget items iter).key = key
      · rw [if_pos h1] at h
        obtain ⟨hL, -⟩ := Prod.mk.injEq .. ▸ Option.some.inj h
        simp at hL
      · rw [if_neg h1] at h
        cases hrec : findTraceAux items key n (iget items iter).next with
        | none => rw [hrec] at h; exact absurd h (by simp)
        | some p =>
          obtain ⟨l', r'⟩ := p
          rw [hrec] at h
          simp only at h
          obtain ⟨hL, -⟩ := Prod.mk.injEq .. ▸ Option.some.inj h
          simp at hL

theorem findTraceAux_res_mem (items : Array LItem) (key : List Nat) :
    ∀ fuel iter L r, findTraceAux items key fuel iter = some (L, r) →
      r ≠ NONE → r ∈ L := by
  intro fuel
  induction fuel with
  | zero => intro iter L r h; simp [findTraceAux] at h
  | succ n ih =>
    intro iter L r h hr
    simp only [findTraceAux] at h
    by_cases h0 : iter = NONE
    · rw [if_pos h0] at h
      obtain ⟨-, hrr⟩ := Prod.mk.injEq .. ▸ Option.some.inj h
      exact absurd hrr.symm hr
    · rw [if_neg h0] at h
      by_cases h1 : (iget items iter).key = key
      · rw [if_pos h1] at h
        obtain ⟨hL, hrr⟩ := Prod.mk.injEq .. ▸ Option.some.inj h
        rw [← hL, ← hrr]
        simp
      · rw [if_neg h1] at h
        cases hrec : findTraceAux items key n (iget items iter).next with
        | none => rw [hrec] at h; exact absurd h (by simp)
        | some p =>
          obtain ⟨l', r'⟩ := p
          rw [hrec] at h
          simp only at h
          obtain ⟨hL, hrr⟩ := Prod.mk.injEq .. ▸ Option.some.inj h
          rw [← hL]
          exact List.mem_cons_of_mem _ (hrr ▸ ih _ l' r' hrec (hrr ▸ hr))

--
-- Behaviour of the insert tail on the success path.

theorem lrutrackInsertCore_ok (tg t' : Lrutrack) (a2 : Bool) (hash : Nat)
    (key : List Nat) (v : Nat)
    (hsz_ht : tg.hash_table.size = tg.hash_table_size)
    (hhash : hash < tg.hash_table_size)
    (hffsz : tg.first_free < tg.items.size)
    (hsing : aget tg.hash_table hash ≠ NONE → tg.lru_head = tg.lru_tail →
      hash = tg.lru_head)
    (hcore : lrutrackInsertCore a2 tg hash key v = (LRUTRACK_OK, t')) :
    t'.items.size = tg.items.size ∧
    t'.num_items = tg.num_items ∧
    t'.hash_table.size = tg.hash_table.size ∧
    t'.hash_table_size = tg.hash_table_size ∧
    t'.seed = tg.seed ∧
    t'.invalid_value = tg.invalid_value ∧
    aget t'.hash_table hash = tg.first_free ∧
    iget t'.items tg.first_free = ⟨key, v, aget tg.hash_table hash⟩ ∧
    (∀ b, b ≠ hash → aget t'.hash_table b = aget tg.hash_table b) ∧
    (∀ j, j ≠ tg.first_free → iget t'.items j = iget tg.items j) ∧
    t'.lru_head = hash := by
  by_cases ha2 : a2 = false
  · simp only [lrutrackInsertCore, ha2, if_pos] at hcore
    exact absurd (congrArg Prod.fst hcore)
      (by simp [LRUTRACK_OOM, LRUTRACK_OK])
  · simp only [lrutrackInsertCore, if_neg ha2] at hcore
    set item1 : LItem :=
      { iget tg.items tg.first_free with key := key, value := v } with hitem1
    set t1 : Lrutrack :=
      { tg with items := aset tg.items tg.first_free item1 } with ht1
    set t2 : Lrutrack :=
      if aget t1.hash_table hash = NONE then lrutrack_insert_to_lru_head t1 hash
      else lrutrack_move_to_lru_head t1 hash with ht2
    have h2items : t2.items = t1.items := by
      rw [ht2]; split
      · exact itlh_items t1 hash
      · exact mtlh_items t1 hash
    have h2ht : t2.hash_table = t1.hash_table := by
      rw [ht2]; split
      · exact itlh_hash_table t1 hash
      · exact mtlh_hash_table t1 hash
    have h2n : t2.num_items = t1.num_items := by
      rw [ht2]; split
      · exact itlh_num_items t1 hash
      · exact mtlh_num_items t1 hash
    have h2hts : t2.hash_table_size = t1.hash_table_size := by
      rw [ht2]; split
      · exact itlh_hash_table_size t1 hash
      · exact mtlh_hash_table_size t1 hash
    have h2seed : t2.seed = t1.seed := by
      rw [ht2]; split
      · exact itlh_seed t1 hash
      · exact mtlh_seed t1 hash
    have h2inv : t2.invalid_value = t1.invalid_value := by
      rw [ht2]; split
      · exact itlh_invalid_value t1 hash
      · exact mtlh_invalid_value t1 hash
    have h2head : t2.lru_head = hash := by
      rw [ht2]; split
      · exact itlh_head t1 hash
      · rename_i hrow
        refine mtlh_head t1 hash ?_
        intro hht
        have : aget tg.hash_table hash ≠ NONE := by
          simpa using hrow
        exact hsing this (by simpa using hht)
    have h1itemsz : t1.items.size = tg.items.size := size_aset tg.items _ _
    have hcore' :
        (LRUTRACK_OK,
          { t2 with
            first_free := (iget t2.items tg.first_free).next
            items := aset t2.items tg.first_free
              { iget t2.items tg.first_free with
                next := aget t2.hash_table hash }
            hash_table := aset t2.hash_table hash tg.first_free }) =
          (LRUTRACK_OK, t') := hcore
    obtain ⟨-, ht'⟩ := Prod.mk.injEq .. ▸ hcore'
    subst ht'
    have hselfitem : iget t2.items tg.first_free = item1 := by
      rw [h2items, ht1]
      exact iget_aset_eq tg.items tg.first_free _ hffsz
    have hrowkeep : aget t2.hash_table hash = aget tg.hash_table hash := by
      rw [h2ht]
    refine ⟨?_, ?_, ?_, ?_, ?_, ?_, ?_, ?_, ?_, ?_, ?_⟩
    · simp only [size_aset, h2items, h1itemsz]
    · simp only [h2n]
    · simp only [size_aset, h2ht]
    · simp only [h2hts]
    · simp only [h2seed]
    · simp only [h2inv]
    · have : hash < t2.hash_table.size := by
        rw [h2ht]
        show hash < tg.hash_table.size
        omega
      simp only [aget_aset_eq _ _ _ this]
    · have hsz : tg.first_free < t2.items.size := by
        rw [h2items, h1itemsz]; exact hffsz
      simp only [iget_aset_eq _ _ _ hsz, hselfitem, hrowkeep]
    · intro b hb
      have : hash ≠ b := fun hcon => hb hcon.symm
      simp only [aget_aset_ne _ _ _ _ this, h2ht]
    · intro j hj
      have : tg.first_free ≠ j := fun hcon => hj hcon.symm
      simp only [iget_aset_ne _ _ _ _ this, h2items, ht1]
    · simp only [h2head]

theorem NONE_eq : NONE = 4294967295 := rfl

theorem U32_eq : U32 = 4294967296 := rfl

theorem iget_ofFn {n : Nat} (f : Fin n → LItem) (j : Nat) (hj : j < n) :
    iget (Array.ofFn f) j = f ⟨j, hj⟩ := by
  unfold iget
  simp [Array.getD, hj]

/-- Full behaviour of `lrutrack_insert` on the success path, from any
state satisfying the structural invariants: the new item sits at some
fresh arena index (`t.first_free`, or an appended slot when the arena
grew), becomes the head of its bucket chain with the old bucket head as
its successor, every other bucket and every surviving old slot is
untouched, and the key's bucket is promoted to the LRU head. -/
theorem lrutrack_insert_ok (t t' : Lrutrack) (a1 a2 : Bool) (junk : Nat → LItem)
    (key : List Nat) (v : Nat)
    (hs : SizeOk t) (hl : LruOk t)
    (hins : lrutrack_insert a1 a2 junk t key v = (LRUTRACK_OK, t')) :
    ∃ index : Nat,
      index ≠ NONE ∧
      (index = t.first_free ∨ t.num_items ≤ index) ∧
      index < t'.items.size ∧
      t'.items.size = t'.num_items ∧
      t.num_items ≤ t'.num_items ∧
      t'.hash_table.size = t.hash_table_size ∧
      t'.hash_table_size = t.hash_table_size ∧
      t'.seed = t.seed ∧
      t'.invalid_value = t.invalid_value ∧
      aget t'.hash_table (lrutrack_hash key t.seed t.hash_table_size) = index ∧
      iget t'.items index =
        ⟨key, v, aget t.hash_table (lrutrack_hash key t.seed t.hash_table_size)⟩ ∧
      (∀ b, b ≠ lrutrack_hash key t.seed t.hash_table_size →
        aget t'.hash_table b = aget t.hash_table b) ∧
      (∀ j, j < t.num_items → j ≠ index → iget t'.items j = iget t.items j) ∧
      t'.lru_head = lrutrack_hash key t.seed t.hash_table_size := by
  obtain ⟨hsht, hslk, hsit, hN1, hN31, hn31, hffv⟩ := hs
  have hhlt : lrutrack_hash key t.seed t.hash_table_size < t.hash_table_size :=
    lrutrack_hash_lt key t.seed t.hash_table_size hN1
  have hsing0 : aget t.hash_table (lrutrack_hash key t.seed t.hash_table_size)
      ≠ NONE → t.lru_head = t.lru_tail →
      lrutrack_hash key t.seed t.hash_table_size = t.lru_head := by
    intro hrow hht
    obtain ⟨-, -, -, -, -, -, -, -, -, -, hsi⟩ := hl
    exact hsi hht _ hhlt hrow
  simp only [lrutrack_insert] at hins
  by_cases hff : t.first_free = NONE
  · rw [if_pos hff] at hins
    by_cases hn0 : t.num_items = 0
    · rw [if_pos hn0] at hins
      by_cases ha1 : a1 = false
      · rw [if_pos ha1] at hins
        exact absurd (congrArg Prod.fst hins)
          (by simp [LRUTRACK_OOM, LRUTRACK_OK])
      · rw [if_neg ha1] at hins
        have hC := lrutrackInsertCore_ok
          { t with
            items := Array.ofFn (n := t.hash_table_size) fun i =>
              { junk i.val with
                next := if i.val + 1 < t.hash_table_size then i.val + 1
                  else NONE }
            num_items := t.hash_table_size
            first_free := 0 }
          t' a2 (lrutrack_hash key t.seed t.hash_table_size) key v
          (by dsimp only; exact hsht)
          (by dsimp only; exact hhlt)
          (by dsimp only; rw [Array.size_ofFn]; omega)
          (by dsimp only; exact hsing0)
          hins
        dsimp only at hC
        obtain ⟨hc1, hc2, hc3, hc4, hc5, hc6, hc7, hc8, hc9, hc10, hc11⟩ := hC
        refine ⟨0, by rw [NONE_eq]; omega, by omega, ?_, ?_, by omega, ?_, ?_,
          ?_, ?_, ?_, ?_, ?_, ?_, ?_⟩
        · rw [hc1, Array.size_ofFn]; omega
        · rw [hc1, hc2, Array.size_ofFn]
        · rw [hc3]; exact hsht
        · exact hc4
        · exact hc5
        · exact hc6
        · exact hc7
        · exact hc8
        · exact hc9
        · intro j hj hne
          omega
        · exact hc11
    · rw [if_neg hn0] at hins
      by_cases ha1 : a1 = false
      · rw [if_pos ha1] at hins
        exact absurd (congrArg Prod.fst hins)
          (by simp [LRUTRACK_OOM, LRUTRACK_OK])
      · rw [if_neg ha1] at hins
        have hu : u32 (2 * t.num_items) = 2 * t.num_items :=
          Nat.mod_eq_of_lt (by rw [U32_eq]; omega)
        have hC := lrutrackInsertCore_ok
          { t with
            items := Array.ofFn (n := u32 (2 * t.num_items)) fun i =>
              if i.val < t.num_items then iget t.items i.val
              else
                { key := []
                  value := t.invalid_value
                  next := if i.val + 1 < u32 (2 * t.num_items) then i.val + 1
                    else NONE }
            num_items := u32 (2 * t.num_items)
            first_free := t.num_items }
          t' a2 (lrutrack_hash key t.seed t.hash_table_size) key v
          (by dsimp only; exact hsht)
          (by dsimp only; exact hhlt)
          (by dsimp only; rw [Array.size_ofFn, hu]; omega)
          (by dsimp only; exact hsing0)
          hins
        dsimp only at hC
        obtain ⟨hc1, hc2, hc3, hc4, hc5, hc6, hc7, hc8, hc9, hc10, hc11⟩ := hC
        have hsz' : t'.items.size = 2 * t.num_items := by
          rw [hc1, Array.size_ofFn, hu]
        refine ⟨t.num_items, by rw [NONE_eq]; omega, by omega, by omega, ?_,
          ?_, ?_, ?_, ?_, ?_, ?_, ?_, ?_, ?_, ?_⟩
        · rw [hsz', hc2, hu]
        · rw [hc2, hu]; omega
        · rw [hc3]; exact hsht
        · exact hc4
        · exact hc5
        · exact hc6
        · exact hc7
        · exact hc8
        · exact hc9
        · intro j hj hne
          rw [hc10 j hne]
          have hj2 : j < u32 (2 * t.num_items) := by omega
          rw [iget_ofFn _ j hj2]
          simp only [hj, if_pos]
        · exact hc11
  · rw [if_neg hff] at hins
    have hC := lrutrackInsertCore_ok t t' a2
      (lrutrack_hash key t.seed t.hash_table_size) key v
      hsht hhlt (by omega) hsing0 hins
    obtain ⟨hc1, hc2, hc3, hc4, hc5, hc6, hc7, hc8, hc9, hc10, hc11⟩ := hC
    refine ⟨t.first_free, hff, Or.inl rfl, by omega, by omega, by omega, ?_,
      ?_, ?_, ?_, ?_, ?_, ?_, ?_, ?_⟩
    · rw [hc3]; exact hsht
    · exact hc4
    · exact hc5
    · exact hc6
    · exact hc7
    · exact hc8
    · exact hc9
    · intro j hj hne
      exact hc10 j hne
    · exact hc11

/-- Behaviour of `lrutrack_remove` when the target item is the head of
its bucket chain (the `prev_index == UINT32_MAX` path): the bucket head
becomes the removed item's chain successor, the slot is pushed onto the
free list and invalidated, and nothing else in the arena changes. -/
theorem lrutrack_remove_spec (tt : Lrutrack) (key : List Nat) (index : Nat)
    (hhsz : lrutrack_hash key tt.seed tt.hash_table_size < tt.hash_table.size)
    (hfind : lrutrack_find_index tt key
      (lrutrack_hash key tt.seed tt.hash_table_size) = some index)
    (hne : index ≠ NONE)
    (hprev : prevScan tt.items index (tt.num_items + 1) NONE
      (aget tt.hash_table (lrutrack_hash key tt.seed tt.hash_table_size)) =
      some NONE) :
    ∃ t3, lrutrack_remove tt key = some (LRUTRACK_OK, t3) ∧
      t3.seed = tt.seed ∧
      t3.hash_table_size = tt.hash_table_size ∧
      t3.invalid_value = tt.invalid_value ∧
      t3.num_items = tt.num_items ∧
      t3.first_free = index ∧
      (∀ j, j ≠ index → iget t3.items j = iget tt.items j) ∧
      aget t3.hash_table (lrutrack_hash key tt.seed tt.hash_table_size) =
        (iget tt.items index).next := by
  simp only [lrutrack_remove, lrutrack_find_index] at hfind ⊢
  rw [hfind]
  dsimp only
  rw [if_neg hne, hprev]
  dsimp only
  rw [if_pos rfl, aget_aset_eq _ _ _ hhsz]
  by_cases hnx : (iget tt.items index).next = NONE
  · rw [if_pos hnx]
    refine ⟨_, rfl, ?_, ?_, ?_, ?_, ?_, ?_, ?_⟩
    · dsimp only
      rw [rful_seed]
    · dsimp only
      rw [rful_hash_table_size]
    · dsimp only
      rw [rful_invalid_value]
    · dsimp only
      rw [rful_num_items]
    · dsimp only
    · intro j hj
      dsimp only
      have hji : index ≠ j := fun hc => hj hc.symm
      rw [iget_aset_ne _ _ _ _ hji, rful_items]
    · dsimp only
      rw [rful_hash_table, aget_aset_eq _ _ _ hhsz]
  · rw [if_neg hnx]
    refine ⟨_, rfl, rfl, rfl, rfl, rfl, rfl, ?_, ?_⟩
    · intro j hj
      dsimp only
      have hji : index ≠ j := fun hc => hj hc.symm
      rw [iget_aset_ne _ _ _ _ hji]
    · dsimp only
      rw [aget_aset_eq _ _ _ hhsz]

/-- Replaying a not-found bucket walk of state `t` in a state `tF` that
agrees with `t` on the visited slots, on the same bucket head:
`lrutrack_use` misses and changes nothing. -/
theorem lrutrack_use_miss_replay (t tF : Lrutrack) (key : List Nat)
    (L : List Nat)
    (htrace : findTraceAux t.items key (t.num_items + 1)
      (aget t.hash_table (lrutrack_hash key t.seed t.hash_table_size)) =
      some (L, NONE))
    (hseed : tF.seed = t.seed) (hhts : tF.hash_table_size = t.hash_table_size)
    (hnum : t.num_items ≤ tF.num_items)
    (hrowF : aget tF.hash_table (lrutrack_hash key t.seed t.hash_table_size) =
      aget t.hash_table (lrutrack_hash key t.seed t.hash_table_size))
    (hagree : ∀ j ∈ L, iget tF.items j = iget t.items j) :
    lrutrack_use tF key = some (tF.invalid_value, tF) := by
  have htr2 := findTraceAux_mono t.items key (t.num_items + 1)
    (tF.num_items + 1) _ _ htrace (by omega)
  have htr3 := findTraceAux_congr t.items tF.items key (tF.num_items + 1)
    _ _ _ htr2 hagree
  have hfindF := findTraceAux_find tF.items key (tF.num_items + 1) _ _ _ htr3
  simp only [lrutrack_use, lrutrack_find_index]
  rw [hseed, hhts, hrowF, hfindF]
  dsimp only
  rw [if_pos rfl]

/-- C7: for every well-formed LRU-Tracker state, every key that is not
present (its bucket walk ends in "not found"), and every value `v`
distinct from `invalid_value`: if `lrutrack_insert` returns
`LRUTRACK_OK` then `lrutrack_use` of the key returns `v` and leaves the
key's bucket at the LRU head; and after `lrutrack_remove` of the key
(which returns `LRUTRACK_OK`), `lrutrack_use` returns `invalid_value`. -/
theorem lrutrack_insert_use_roundtrip (t t' : Lrutrack) (a1 a2 : Bool)
    (junk : Nat → LItem) (key : List Nat) (v : Nat) (L : List Nat)
    (hw : Wf t) (hkey : key ≠ []) (hv : v ≠ t.invalid_value)
    (htrace : findTraceAux t.items key (t.num_items + 1)
      (aget t.hash_table (lrutrack_hash key t.seed t.hash_table_size)) =
      some (L, NONE))
    (hL : ∀ j ∈ L, j < t.num_items)
    (hffL : t.first_free ∉ L)
    (hins : lrutrack_insert a1 a2 junk t key v = (LRUTRACK_OK, t')) :
    (lrutrack_use t' key).map (fun p => (p.1, p.2.lru_head)) =
      some (v, lrutrack_hash key t.seed t.hash_table_size) ∧
    ∃ t2, lrutrack_remove t' key = some (LRUTRACK_OK, t2) ∧
      (lrutrack_use t2 key).map Prod.fst = some t.invalid_value := by
  obtain ⟨hs, hl⟩ := hw
  obtain ⟨index, hi1, hi2, hi3, hi4, hi5, hi6, hi7, hi8, hi9, hi10, hi11,
    hi12, hi13, hi14⟩ := lrutrack_insert_ok t t' a1 a2 junk key v hs hl hins
  have hk : (iget t'.items index).key = key := by rw [hi11]
  have hfind' : findIndexAux t'.items key (t'.num_items + 1)
      (aget t'.hash_table (lrutrack_hash key t.seed t.hash_table_size)) =
      some index := by
    rw [hi10]
    simp only [findIndexAux]
    rw [if_neg hi1, if_pos hk]
  have hh' : lrutrack_hash key t'.seed t'.hash_table_size =
      lrutrack_hash key t.seed t.hash_table_size := by rw [hi8, hi7]
  have hjne : ∀ j ∈ L, j ≠ index := by
    intro j hj
    rcases hi2 with h1 | h2
    · rw [h1]; exact fun hc => hffL (hc ▸ hj)
    · have := hL j hj; omega
  constructor
  · have huse' : lrutrack_use t' key =
        some (v, lrutrack_move_to_lru_head t'
          (lrutrack_hash key t.seed t.hash_table_size)) := by
      simp only [lrutrack_use, lrutrack_find_index]
      rw [hh', hfind']
      dsimp only
      rw [if_neg hi1, mtlh_items, hi11]
    rw [huse']
    simp only [Option.map]
    rw [mtlh_head t' _ (fun _ => hi14.symm)]
  · have hfind'' : lrutrack_find_index t' key
        (lrutrack_hash key t'.seed t'.hash_table_size) = some index := by
      unfold lrutrack_find_index
      rw [hh']
      exact hfind'
    have hprev : prevScan t'.items index (t'.num_items + 1) NONE
        (aget t'.hash_table (lrutrack_hash key t'.seed t'.hash_table_size)) =
        some NONE := by
      rw [hh', hi10]
      simp only [prevScan]
      rw [if_neg hi1]
      simp
    have hhsz : lrutrack_hash key t'.seed t'.hash_table_size <
        t'.hash_table.size := by
      rw [hh', hi6]
      exact lrutrack_hash_lt key t.seed t.hash_table_size (by
        obtain ⟨-, -, -, hN1, -⟩ := hs
        exact hN1)
    obtain ⟨t3, hr1, hr2, hr3, hr4, hr5, hr6, hr7, hr8⟩ :=
      lrutrack_remove_spec t' key index hhsz hfind'' hi1 hprev
    refine ⟨t3, hr1, ?_⟩
    have hrepl := lrutrack_use_miss_replay t t3 key L htrace
      (by rw [hr2, hi8]) (by rw [hr3, hi7]) (by omega)
      (by rw [hh'] at hr8; rw [hr8, hi11]) ?_
    · rw [hrepl]
      simp only [Option.map]
      rw [hr4, hi9]
    · intro j hj
      rw [hr7 j (hjne j hj), hi13 j (hL j hj) (hjne j hj)]

/-- Witness for C7: a freshly created tracker (`hash_table_size = 2`,
two arena slots, seed 0, `invalid_value` 0), key `[1]`, value 7. -/
theorem lrutrack_insert_use_roundtrip_witness :
    Wf (lrutrack_create 2 2 0 0) ∧
    ((lrutrack_use (lrutrack_insert true true ljunk0
        (lrutrack_create 2 2 0 0) [1] 7).2 [1]).map
        (fun p => (p.1, p.2.lru_head)) =
      some (7, lrutrack_hash [1] (lrutrack_create 2 2 0 0).seed
        (lrutrack_create 2 2 0 0).hash_table_size) ∧
    ∃ t2, lrutrack_remove (lrutrack_insert true true ljunk0
        (lrutrack_create 2 2 0 0) [1] 7).2 [1] = some (LRUTRACK_OK, t2) ∧
      (lrutrack_use t2 [1]).map Prod.fst =
        some (lrutrack_create 2 2 0 0).invalid_value) :=
  ⟨by decide,
    lrutrack_insert_use_roundtrip (lrutrack_create 2 2 0 0)
      (lrutrack_insert true true ljunk0 (lrutrack_create 2 2 0 0) [1] 7).2
      true true ljunk0 [1] 7 [] ⟨by decide, by decide⟩ (by decide) (by decide)
      (by decide) (by decide) (by decide) (by decide)⟩

/-- `lrutrack_remove_from_lru` on a well-formed list unlinks its
argument completely: the argument is no longer an endpoint, its own
link pair is cleared, and no other bucket's links point at it (the
former neighbours are relinked to each other). -/
theorem rful_removes (u : Lrutrack) (h : Nat)
    (hszlk : u.links.size = 2 * u.hash_table_size)
    (hN : u.hash_table_size < 2 ^ 31)
    (hh : h < u.hash_table_size)
    (hheadlink : u.lru_head ≠ NONE → aget u.links (2 * u.lru_head) = NONE)
    (htaillink : u.lru_tail ≠ NONE → aget u.links (2 * u.lru_tail + 1) = NONE)
    (hrange : ∀ j, j < 2 * u.hash_table_size →
      aget u.links j = NONE ∨ aget u.links j < u.hash_table_size)
    (hnoself : ∀ b, b < u.hash_table_size →
      aget u.links (2 * b) ≠ b ∧ aget u.links (2 * b + 1) ≠ b)
    (hmut1 : ∀ b, b < u.hash_table_size → aget u.links (2 * b + 1) ≠ NONE →
      aget u.links (2 * aget u.links (2 * b + 1)) = b)
    (hmut2 : ∀ b, b < u.hash_table_size → aget u.links (2 * b) ≠ NONE →
      aget u.links (2 * aget u.links (2 * b) + 1) = b)
    (hlst1 : h = u.lru_head ∨ aget u.links (2 * h) ≠ NONE)
    (hlst2 : h = u.lru_tail ∨ aget u.links (2 * h + 1) ≠ NONE)
    (hsing : u.lru_head = u.lru_tail → h = u.lru_head) :
    (lrutrack_remove_from_lru u h).lru_head ≠ h ∧
    (lrutrack_remove_from_lru u h).lru_tail ≠ h ∧
    aget (lrutrack_remove_from_lru u h).links (2 * h) = NONE ∧
    aget (lrutrack_remove_from_lru u h).links (2 * h + 1) = NONE ∧
    (∀ b, b < u.hash_table_size →
      aget (lrutrack_remove_from_lru u h).links (2 * b) ≠ h ∧
      aget (lrutrack_remove_from_lru u h).links (2 * b + 1) ≠ h) := by
  have hNONE : NONE = 4294967295 := rfl
  have hne_h : h ≠ NONE := by omega
  unfold lrutrack_remove_from_lru
  simp only [Nat.add_zero]
  by_cases hht : u.lru_head = u.lru_tail
  · rw [if_pos hht]
    have hH : h = u.lru_head := hsing hht
    have hHne : u.lru_head ≠ NONE := by rw [← hH]; exact hne_h
    have hTne : u.lru_tail ≠ NONE := by rw [← hht]; exact hHne
    have hT : h = u.lru_tail := by rw [hH, hht]
    have h2h : aget u.links (2 * h) = NONE := by rw [hH]; exact hheadlink hHne
    have h2h1 : aget u.links (2 * h + 1) = NONE := by
      rw [hT]; exact htaillink hTne
    refine ⟨by dsimp only; omega, by dsimp only; omega, h2h, h2h1, ?_⟩
    intro b hb
    dsimp only
    constructor
    · intro hcon
      have := hmut2 b hb (by rw [hcon]; exact hne_h)
      rw [hcon, h2h1] at this
      omega
    · intro hcon
      have := hmut1 b hb (by rw [hcon]; exact hne_h)
      rw [hcon, h2h] at this
      omega
  · rw [if_neg hht]
    by_cases hisH : h = u.lru_head
    · rw [if_pos hisH]
      have hHne : u.lru_head ≠ NONE := by rw [← hisH]; exact hne_h
      have hTneH : h ≠ u.lru_tail := fun hc => hht (by rw [← hisH, hc])
      have hnh_ne : aget u.links (2 * h + 1) ≠ NONE := by
        rcases hlst2 with hc | hc
        · exact absurd hc hTneH
        · exact hc
      have hnh_lt : aget u.links (2 * h + 1) < u.hash_table_size := by
        rcases hrange (2 * h + 1) (by omega) with hc | hc
        · exact absurd hc hnh_ne
        · exact hc
      have hnh_neh : aget u.links (2 * h + 1) ≠ h := (hnoself h hh).2
      have h2h : aget u.links (2 * h) = NONE := by
        rw [hisH]; exact hheadlink hHne
      have hsz1 : (aset u.links (2 * aget u.links (2 * h + 1)) NONE).size =
          2 * u.hash_table_size := by rw [size_aset, hszlk]
      refine ⟨?_, ?_, ?_, ?_, ?_⟩
      · dsimp only; omega
      · dsimp only
        intro hc
        exact hTneH hc.symm
      · dsimp only
        rw [aget_aset_ne _ _ _ _ (by omega),
          aget_aset_ne _ _ _ _ (by omega : 2 * aget u.links (2 * h + 1) ≠ 2 * h)]
        exact h2h
      · dsimp only
        rw [aget_aset_eq]
        rw [hsz1]; omega
      · intro b hb
        dsimp only
        constructor
        · by_cases hbnh : b = aget u.links (2 * h + 1)
          · rw [hbnh, aget_aset_ne _ _ _ _ (by omega), aget_aset_eq]
            · omega
            · rw [hszlk]; omega
          · rw [aget_aset_ne _ _ _ _ (by omega),
              aget_aset_ne _ _ _ _ (by omega : 2 * aget u.links (2 * h + 1) ≠ 2 * b)]
            intro hcon
            have := hmut2 b hb (by rw [hcon]; exact hne_h)
            rw [hcon] at this
            exact hbnh this.symm
        · by_cases hbh : b = h
          · rw [hbh, aget_aset_eq]
            · omega
            · rw [hsz1]; omega
          · rw [aget_aset_ne _ _ _ _ (by omega),
              aget_aset_ne _ _ _ _ (by omega : 2 * aget u.links (2 * h + 1) ≠ 2 * b + 1)]
            intro hcon
            have := hmut1 b hb (by rw [hcon]; exact hne_h)
            rw [hcon, h2h] at this
            omega
    · rw [if_neg hisH]
      by_cases hisT : h = u.lru_tail
      · rw [if_pos hisT]
        have hTne : u.lru_tail ≠ NONE := by rw [← hisT]; exact hne_h
        have hnt_ne : aget u.links (2 * h) ≠ NONE := by
          rcases hlst1 with hc | hc
          · exact absurd hc hisH
          · exact hc
        have hnt_lt : aget u.links (2 * h) < u.hash_table_size := by
          rcases hrange (2 * h) (by omega) with hc | hc
          · exact absurd hc hnt_ne
          · exact hc
        have hnt_neh : aget u.links (2 * h) ≠ h := (hnoself h hh).1
        have h2h1 : aget u.links (2 * h + 1) = NONE := by
          rw [hisT]; exact htaillink hTne
        have hsz1 : (aset u.links (2 * aget u.links (2 * h) + 1) NONE).size =
            2 * u.hash_table_size := by rw [size_aset, hszlk]
        have hHmem : u.lru_head ≠ h := fun hc => hisH hc.symm
        refine ⟨?_, ?_, ?_, ?_, ?_⟩
        · dsimp only; exact hHmem
        · dsimp only; omega
        · dsimp only
          rw [aget_aset_eq]
          rw [hsz1]; omega
        · dsimp only
          rw [aget_aset_ne _ _ _ _ (by omega),
            aget_aset_ne _ _ _ _ (by omega : 2 * aget u.links (2 * h) + 1 ≠ 2 * h + 1)]
          exact h2h1
        · intro b hb
          dsimp only
          constructor
          · by_cases hbh : b = h
            · rw [hbh, aget_aset_eq]
              · omega
              · rw [hsz1]; omega
            · rw [aget_aset_ne _ _ _ _ (by omega),
                aget_aset_ne _ _ _ _ (by omega : 2 * aget u.links (2 * h) + 1 ≠ 2 * b)]
              intro hcon
              have := hmut2 b hb (by rw [hcon]; exact hne_h)
              rw [hcon, h2h1] at this
              omega
          · by_cases hbnt : b = aget u.links (2 * h)
            · rw [hbnt, aget_aset_ne _ _ _ _ (by omega), aget_aset_eq]
              · omega
              · rw [hszlk]; omega
            · rw [aget_aset_ne _ _ _ _ (by omega),
                aget_aset_ne _ _ _ _
                  (by omega : 2 * aget u.links (2 * h) + 1 ≠ 2 * b + 1)]
              intro hcon
              have := hmut1 b hb (by rw [hcon]; exact hne_h)
              rw [hcon] at this
              exact hbnt this.symm
      · rw [if_neg hisT]
        have hp_ne : aget u.links (2 * h) ≠ NONE := by
          rcases hlst1 with hc | hc
          · exact absurd hc hisH
          · exact hc
        have hp_lt : aget u.links (2 * h) < u.hash_table_size := by
          rcases hrange (2 * h) (by omega) with hc | hc
          · exact absurd hc hp_ne
          · exact hc
        have hp_neh : aget u.links (2 * h) ≠ h := (hnoself h hh).1
        have hnx_ne : aget u.links (2 * h + 1) ≠ NONE := by
          rcases hlst2 with hc | hc
          · exact absurd hc hisT
          · exact hc
        have hnx_lt : aget u.links (2 * h + 1) < u.hash_table_size := by
          rcases hrange (2 * h + 1) (by omega) with hc | hc
          · exact absurd hc hnx_ne
          · exact hc
        have hnx_neh : aget u.links (2 * h + 1) ≠ h := (hnoself h hh).2
        have hHmem : u.lru_head ≠ h := fun hc => hisH hc.symm
        have hTmem : u.lru_tail ≠ h := fun hc => hisT hc.symm
        set p := aget u.links (2 * h) with hp
        set nx := aget u.links (2 * h + 1) with hnx
        have hsz1 : (aset u.links (2 * nx) p).size = 2 * u.hash_table_size := by
          rw [size_aset, hszlk]
        have hsz2 : (aset (aset u.links (2 * nx) p) (2 * p + 1) nx).size =
            2 * u.hash_table_size := by rw [size_aset, hsz1]
        have hsz3 : (aset (aset (aset u.links (2 * nx) p) (2 * p + 1) nx)
            (2 * h) NONE).size = 2 * u.hash_table_size := by
          rw [size_aset, hsz2]
        refine ⟨?_, ?_, ?_, ?_, ?_⟩
        · dsimp only; exact hHmem
        · dsimp only; exact hTmem
        · dsimp only
          rw [aget_aset_ne _ _ _ _ (by omega), aget_aset_eq]
          rw [hsz2]; omega
        · dsimp only
          rw [aget_aset_eq]
          rw [hsz3]; omega
        · intro b hb
          dsimp only
          constructor
          · by_cases hbh : b = h
            · rw [hbh, aget_aset_ne _ _ _ _ (by omega), aget_aset_eq]
              · omega
              · rw [hsz2]; omega
            · by_cases hbnx : b = nx
              · rw [hbnx, aget_aset_ne _ _ _ _ (by omega),
                  aget_aset_ne _ _ _ _ (by omega : 2 * h ≠ 2 * nx),
                  aget_aset_ne _ _ _ _ (by omega), aget_aset_eq]
                · omega
                · rw [hszlk]; omega
              · rw [aget_aset_ne _ _ _ _ (by omega),
                  aget_aset_ne _ _ _ _ (by omega : 2 * h ≠ 2 * b),
                  aget_aset_ne _ _ _ _ (by omega),
                  aget_aset_ne _ _ _ _ (by omega : 2 * nx ≠ 2 * b)]
                intro hcon
                have := hmut2 b hb (by rw [hcon]; exact hne_h)
                rw [hcon, ← hnx] at this
                exact hbnx this.symm
          · by_cases hbh : b = h
            · rw [hbh, aget_aset_eq]
              · omega
              · rw [hsz3]; omega
            · by_cases hbp : b = p
              · rw [hbp, aget_aset_ne _ _ _ _ (by omega),
                  aget_aset_ne _ _ _ _ (by omega : 2 * h ≠ 2 * p + 1),
                  aget_aset_eq]
                · omega
                · rw [hsz1]; omega
              · rw [aget_aset_ne _ _ _ _ (by omega),
                  aget_aset_ne _ _ _ _ (by omega : 2 * h ≠ 2 * b + 1),
                  aget_aset_ne _ _ _ _ (by omega),
                  aget_aset_ne _ _ _ _ (by omega : 2 * nx ≠ 2 * b + 1)]
                intro hcon
                have := hmut1 b hb (by rw [hcon]; exact hne_h)
                rw [hcon, ← hp] at this
                exact hbp this.symm

theorem findIndexAux_start_ne (items : Array LItem) (key : List Nat)
    (fuel iter index : Nat)
    (h : findIndexAux items key fuel iter = some index) (hne : index ≠ NONE) :
    iter ≠ NONE := by
  cases fuel with
  | zero => simp [findIndexAux] at h
  | succ n =>
    intro h0
    simp only [findIndexAux] at h
    rw [if_pos h0] at h
    exact hne (Option.some.inj h).symm

/-- C8: the per-bucket LRU discipline of the LRU-Tracker, from any
well-formed state: (a) a successful insert promotes the key's bucket
to the LRU head; (b) a lookup hit returns the stored value and promotes
the key's bucket to the LRU head, touching neither the bucket table nor
the arena; (c) a remove that leaves the key's bucket non-empty (and a
remove that misses) changes no LRU state; (d) a remove that empties the
key's bucket removes that bucket from the LRU list: it is no endpoint,
its link pair is cleared and no other bucket's links point at it;
(e) a lookup miss changes no state at all. -/
theorem lrutrack_lru_discipline (t : Lrutrack) (hw : Wf t) :
    (∀ (a1 a2 : Bool) (junk : Nat → LItem) (key : List Nat) (v : Nat)
      (t' : Lrutrack), lrutrack_insert a1 a2 junk t key v = (LRUTRACK_OK, t') →
      t'.lru_head = lrutrack_hash key t.seed t.hash_table_size) ∧
    (∀ (key : List Nat) (index : Nat),
      lrutrack_find_index t key (lrutrack_hash key t.seed t.hash_table_size) =
        some index → index ≠ NONE →
      ∃ t'', lrutrack_use t key = some ((iget t.items index).value, t'') ∧
        t''.lru_head = lrutrack_hash key t.seed t.hash_table_size ∧
        t''.hash_table = t.hash_table ∧ t''.items = t.items) ∧
    (∀ (key : List Nat) (c : Nat) (t2 : Lrutrack),
      lrutrack_remove t key = some (c, t2) →
      aget t2.hash_table (lrutrack_hash key t.seed t.hash_table_size) ≠ NONE →
      t2.links = t.links ∧ t2.lru_head = t.lru_head ∧
        t2.lru_tail = t.lru_tail) ∧
    (∀ (key : List Nat) (t2 : Lrutrack),
      lrutrack_remove t key = some (LRUTRACK_OK, t2) →
      aget t2.hash_table (lrutrack_hash key t.seed t.hash_table_size) = NONE →
      t2.lru_head ≠ lrutrack_hash key t.seed t.hash_table_size ∧
      t2.lru_tail ≠ lrutrack_hash key t.seed t.hash_table_size ∧
      aget t2.links (2 * lrutrack_hash key t.seed t.hash_table_size) = NONE ∧
      aget t2.links
        (2 * lrutrack_hash key t.seed t.hash_table_size + 1) = NONE ∧
      (∀ b, b < t.hash_table_size →
        aget t2.links (2 * b) ≠ lrutrack_hash key t.seed t.hash_table_size ∧
        aget t2.links (2 * b + 1) ≠
          lrutrack_hash key t.seed t.hash_table_size)) ∧
    (∀ key : List Nat,
      lrutrack_find_index t key (lrutrack_hash key t.seed t.hash_table_size) =
        some NONE →
      lrutrack_use t key = some (t.invalid_value, t)) := by
  obtain ⟨hs, hl⟩ := hw
  obtain ⟨hsht, hslk, hsit, hN1, hN31, hn31, hffv⟩ := hs
  obtain ⟨hheadv, htailv, hheadlink, htaillink, hrange, hnoself, hmut1, hmut2,
    hempty, hnonempty, hsing⟩ := hl
  refine ⟨?_, ?_, ?_, ?_, ?_⟩
  · intro a1 a2 junk key v t' hins
    obtain ⟨index, hi⟩ := lrutrack_insert_ok t t' a1 a2 junk key v
      ⟨hsht, hslk, hsit, hN1, hN31, hn31, hffv⟩
      ⟨hheadv, htailv, hheadlink, htaillink, hrange, hnoself, hmut1, hmut2,
        hempty, hnonempty, hsing⟩ hins
    exact hi.2.2.2.2.2.2.2.2.2.2.2.2.2
  · intro key index hfind hne
    have hhlt := lrutrack_hash_lt key t.seed t.hash_table_size hN1
    have hrow : aget t.hash_table
        (lrutrack_hash key t.seed t.hash_table_size) ≠ NONE := by
      unfold lrutrack_find_index at hfind
      exact findIndexAux_start_ne t.items key _ _ index hfind hne
    refine ⟨lrutrack_move_to_lru_head t
      (lrutrack_hash key t.seed t.hash_table_size), ?_, ?_, ?_, ?_⟩
    · simp only [lrutrack_use]
      rw [hfind]
      dsimp only
      rw [if_neg hne, mtlh_items]
    · exact mtlh_head t _ (fun hht => hsing hht _ hhlt hrow)
    · exact mtlh_hash_table t _
    · exact mtlh_items t _
  · intro key c t2 hrem hne
    simp only [lrutrack_remove] at hrem
    cases hfind : lrutrack_find_index t key
        (lrutrack_hash key t.seed t.hash_table_size) with
    | none => rw [hfind] at hrem; exact absurd hrem (by simp)
    | some index =>
      rw [hfind] at hrem
      dsimp only at hrem
      by_cases h0 : index = NONE
      · rw [if_pos h0] at hrem
        obtain ⟨-, ht2⟩ := Prod.mk.injEq .. ▸ Option.some.inj hrem
        subst ht2
        exact ⟨rfl, rfl, rfl⟩
      · rw [if_neg h0] at hrem
        cases hprev : prevScan t.items index (t.num_items + 1) NONE
            (aget t.hash_table (lrutrack_hash key t.seed t.hash_table_size))
            with
        | none => rw [hprev] at hrem; exact absurd hrem (by simp)
        | some prev =>
          rw [hprev] at hrem
          dsimp only at hrem
          by_cases hp0 : prev = NONE
          · rw [if_pos hp0] at hrem
            have hhsz : lrutrack_hash key t.seed t.hash_table_size <
                t.hash_table.size := by
              rw [hsht]
              exact lrutrack_hash_lt key t.seed t.hash_table_size hN1
            rw [aget_aset_eq _ _ _ hhsz] at hrem
            by_cases hnx : (iget t.items index).next = NONE
            · rw [if_pos hnx] at hrem
              obtain ⟨-, ht2⟩ := Prod.mk.injEq .. ▸ Option.some.inj hrem
              subst ht2
              dsimp only at hne
              rw [rful_hash_table] at hne
              dsimp only at hne
              rw [aget_aset_eq _ _ _ hhsz, hnx] at hne
              exact absurd rfl hne
            · rw [if_neg hnx] at hrem
              obtain ⟨-, ht2⟩ := Prod.mk.injEq .. ▸ Option.some.inj hrem
              subst ht2
              exact ⟨rfl, rfl, rfl⟩
          · rw [if_neg hp0] at hrem
            obtain ⟨-, ht2⟩ := Prod.mk.injEq .. ▸ Option.some.inj hrem
            subst ht2
            exact ⟨rfl, rfl, rfl⟩
  · intro key t2 hrem hempty2
    simp only [lrutrack_remove] at hrem
    cases hfind : lrutrack_find_index t key
        (lrutrack_hash key t.seed t.hash_table_size) with
    | none => rw [hfind] at hrem; exact absurd hrem (by simp)
    | some index =>
      rw [hfind] at hrem
      dsimp only at hrem
      by_cases h0 : index = NONE
      · rw [if_pos h0] at hrem
        obtain ⟨hc, -⟩ := Prod.mk.injEq .. ▸ Option.some.inj hrem
        exact absurd hc (by simp [LRUTRACK_NOT_FOUND, LRUTRACK_OK])
      · rw [if_neg h0] at hrem
        have hrow : aget t.hash_table
            (lrutrack_hash key t.seed t.hash_table_size) ≠ NONE := by
          unfold lrutrack_find_index at hfind
          exact findIndexAux_start_ne t.items key _ _ index hfind h0
        have hhlt := lrutrack_hash_lt key t.seed t.hash_table_size hN1
        have hhsz : lrutrack_hash key t.seed t.hash_table_size <
            t.hash_table.size := by rw [hsht]; exact hhlt
        cases hprev : prevScan t.items index (t.num_items + 1) NONE
            (aget t.hash_table (lrutrack_hash key t.seed t.hash_table_size))
            with
        | none => rw [hprev] at hrem; exact absurd hrem (by simp)
        | some prev =>
          rw [hprev] at hrem
          dsimp only at hrem
          by_cases hp0 : prev = NONE
          · rw [if_pos hp0] at hrem
            rw [aget_aset_eq _ _ _ hhsz] at hrem
            by_cases hnx : (iget t.items index).next = NONE
            · rw [if_pos hnx] at hrem
              obtain ⟨-, ht2⟩ := Prod.mk.injEq .. ▸ Option.some.inj hrem
              subst ht2
              have hfacts := rful_removes
                { t with hash_table := aset t.hash_table (lrutrack_hash key t.seed t.hash_table_size) (iget t.items index).next }
                (lrutrack_hash key t.seed t.hash_table_size)
                (by dsimp only; exact hslk) (by dsimp only; exact hN31)
                (by dsimp only; exact hhlt) (by dsimp only; exact hheadlink)
                (by dsimp only; exact htaillink) (by dsimp only; exact hrange)
                (by dsimp only; exact hnoself) (by dsimp only; exact hmut1)
                (by dsimp only; exact hmut2)
                (by dsimp only
                    exact (hnonempty _ hhlt hrow).1)
                (by dsimp only
                    exact (hnonempty _ hhlt hrow).2)
                (by dsimp only
                    intro hht
                    exact hsing hht _ hhlt hrow)
              obtain ⟨hf1, hf2, hf3, hf4, hf5⟩ := hfacts
              dsimp only at hf1 hf2 hf3 hf4 hf5
              exact ⟨hf1, hf2, hf3, hf4, hf5⟩
            · rw [if_neg hnx] at hrem
              obtain ⟨-, ht2⟩ := Prod.mk.injEq .. ▸ Option.some.inj hrem
              subst ht2
              dsimp only at hempty2
              rw [aget_aset_eq _ _ _ hhsz] at hempty2
              exact absurd hempty2 hnx
          · rw [if_neg hp0] at hrem
            obtain ⟨-, ht2⟩ := Prod.mk.injEq .. ▸ Option.some.inj hrem
            subst ht2
            dsimp only at hempty2
            exact absurd hempty2 hrow
  · intro key hfind
    simp only [lrutrack_use]
    rw [hfind]
    dsimp only
    rw [if_pos rfl]

/-- Witness for C8: the insert-promotion clause applied to a freshly
created tracker (`hash_table_size = 4`, two arena slots) with key `[0]`
and value 9. -/
theorem lrutrack_lru_discipline_witness :
    Wf (lrutrack_create 4 2 0 0) ∧
    ((lrutrack_insert true true ljunk0
      (lrutrack_create 4 2 0 0) [0] 9).2).lru_head =
      lrutrack_hash [0] (lrutrack_create 4 2 0 0).seed
        (lrutrack_create 4 2 0 0).hash_table_size :=
  ⟨by decide,
    (lrutrack_lru_discipline (lrutrack_create 4 2 0 0) (by decide)).1
      true true ljunk0 [0] 9
      (lrutrack_insert true true ljunk0 (lrutrack_create 4 2 0 0) [0] 9).2
      (by decide)⟩

/-- When both allocations succeed, `lrutrack_insert` always reports
`LRUTRACK_OK` (the release build performs no key-presence check). -/
theorem lrutrack_insert_true_ok (t : Lrutrack) (junk : Nat → LItem)
    (key : List Nat) (v : Nat) :
    (lrutrack_insert true true junk t key v).1 = LRUTRACK_OK := by
  have hb : ¬ ((true : Bool) = false) := by decide
  simp only [lrutrack_insert, lrutrackInsertCore, if_neg hb]
  split
  · split <;> rfl
  · rfl

/-- C9: inserting a key that is already present (violating the
documented caller contract, with debug assertions disabled) still
returns `LRUTRACK_OK` and places a second item at the head of the same
bucket chain (the new bucket head carries the key and the new value,
with the old bucket head as its chain successor); `lrutrack_use` then
returns the newest value, and after the newer item is removed the older
binding is visible again. -/
theorem lrutrack_duplicate_insert_shadowing (t : Lrutrack)
    (junk : Nat → LItem) (key : List Nat) (v2 : Nat) (L : List Nat) (j : Nat)
    (hw : Wf t)
    (htrace : findTraceAux t.items key (t.num_items + 1)
      (aget t.hash_table (lrutrack_hash key t.seed t.hash_table_size)) =
      some (L, j))
    (hj : j ≠ NONE)
    (hL : ∀ i ∈ L, i < t.num_items)
    (hffL : t.first_free ∉ L) :
    (lrutrack_insert true true junk t key v2).1 = LRUTRACK_OK ∧
    iget (lrutrack_insert true true junk t key v2).2.items
      (aget (lrutrack_insert true true junk t key v2).2.hash_table
        (lrutrack_hash key t.seed t.hash_table_size)) =
      ⟨key, v2,
        aget t.hash_table (lrutrack_hash key t.seed t.hash_table_size)⟩ ∧
    (lrutrack_use (lrutrack_insert true true junk t key v2).2 key).map
      Prod.fst = some v2 ∧
    ∃ t2, lrutrack_remove (lrutrack_insert true true junk t key v2).2 key =
        some (LRUTRACK_OK, t2) ∧
      (lrutrack_use t2 key).map Prod.fst = some (iget t.items j).value := by
  obtain ⟨hs, hl⟩ := hw
  have hcode := lrutrack_insert_true_ok t junk key v2
  have hins : lrutrack_insert true true junk t key v2 =
      (LRUTRACK_OK, (lrutrack_insert true true junk t key v2).2) := by
    rw [← hcode]
  obtain ⟨index, hi1, hi2, hi3, hi4, hi5, hi6, hi7, hi8, hi9, hi10, hi11,
    hi12, hi13, hi14⟩ := lrutrack_insert_ok t
    (lrutrack_insert true true junk t key v2).2 true true junk key v2 hs hl
    hins
  set t' := (lrutrack_insert true true junk t key v2).2 with ht'
  have hk : (iget t'.items index).key = key := by rw [hi11]
  have hfind' : findIndexAux t'.items key (t'.num_items + 1)
      (aget t'.hash_table (lrutrack_hash key t.seed t.hash_table_size)) =
      some index := by
    rw [hi10]
    simp only [findIndexAux]
    rw [if_neg hi1, if_pos hk]
  have hh' : lrutrack_hash key t'.seed t'.hash_table_size =
      lrutrack_hash key t.seed t.hash_table_size := by rw [hi8, hi7]
  have hjmem : j ∈ L := findTraceAux_res_mem t.items key _ _ L j htrace hj
  have hjne : ∀ i ∈ L, i ≠ index := by
    intro i hi
    rcases hi2 with h1 | h2
    · rw [h1]; exact fun hc => hffL (hc ▸ hi)
    · have := hL i hi; omega
  refine ⟨hcode, ?_, ?_, ?_⟩
  · rw [hi10, hi11]
  · have huse' : lrutrack_use t' key =
        some (v2, lrutrack_move_to_lru_head t'
          (lrutrack_hash key t.seed t.hash_table_size)) := by
      simp only [lrutrack_use, lrutrack_find_index]
      rw [hh', hfind']
      dsimp only
      rw [if_neg hi1, mtlh_items, hi11]
    rw [huse']
    simp only [Option.map]
  · have hfind'' : lrutrack_find_index t' key
        (lrutrack_hash key t'.seed t'.hash_table_size) = some index := by
      unfold lrutrack_find_index
      rw [hh']
      exact hfind'
    have hprev : prevScan t'.items index (t'.num_items + 1) NONE
        (aget t'.hash_table (lrutrack_hash key t'.seed t'.hash_table_size)) =
        some NONE := by
      rw [hh', hi10]
      simp only [prevScan]
      rw [if_neg hi1]
      simp
    have hhsz : lrutrack_hash key t'.seed t'.hash_table_size <
        t'.hash_table.size := by
      rw [hh', hi6]
      exact lrutrack_hash_lt key t.seed t.hash_table_size (by
        obtain ⟨-, -, -, hN1, -⟩ := hs
        exact hN1)
    obtain ⟨t2, hr1, hr2, hr3, hr4, hr5, hr6, hr7, hr8⟩ :=
      lrutrack_remove_spec t' key index hhsz hfind'' hi1 hprev
    refine ⟨t2, hr1, ?_⟩
    have hagree : ∀ i ∈ L, iget t2.items i = iget t.items i := by
      intro i hi
      rw [hr7 i (hjne i hi), hi13 i (hL i hi) (hjne i hi)]
    have htr2 := findTraceAux_mono t.items key (t.num_items + 1)
      (t2.num_items + 1) _ _ htrace (by omega)
    have htr3 := findTraceAux_congr t.items t2.items key (t2.num_items + 1)
      _ _ _ htr2 hagree
    have hfind2 := findTraceAux_find t2.items key (t2.num_items + 1) _ _ _
      htr3
    have hrow2 : aget t2.hash_table
        (lrutrack_hash key t.seed t.hash_table_size) =
        aget t.hash_table (lrutrack_hash key t.seed t.hash_table_size) := by
      rw [hh'] at hr8
      rw [hr8, hi11]
    simp only [lrutrack_use, lrutrack_find_index]
    rw [hr2, hi8, hr3, hi7, hrow2, hfind2]
    dsimp only
    rw [if_neg hj, mtlh_items, hagree j hjmem]
    simp only [Option.map]

/-- Witness for C9: a tracker holding `[1] ↦ 7`; the duplicate insert
of `[1] ↦ 9` succeeds and `lrutrack_use` then returns 9. -/
theorem lrutrack_duplicate_insert_shadowing_witness :
    Wf (lrutrack_insert true true ljunk0 (lrutrack_create 2 2 0 0) [1] 7).2 ∧
    (lrutrack_insert true true ljunk0
      (lrutrack_insert true true ljunk0
        (lrutrack_create 2 2 0 0) [1] 7).2 [1] 9).1 = LRUTRACK_OK ∧
    (lrutrack_use (lrutrack_insert true true ljunk0
      (lrutrack_insert true true ljunk0
        (lrutrack_create 2 2 0 0) [1] 7).2 [1] 9).2 [1]).map Prod.fst =
      some 9 := by
  have h := lrutrack_duplicate_insert_shadowing
    (lrutrack_insert true true ljunk0 (lrutrack_create 2 2 0 0) [1] 7).2
    ljunk0 [1] 9 [0] 0 ⟨by decide, by decide⟩ (by decide) (by decide)
    (by decide) (by decide)
  exact ⟨⟨by decide, by decide⟩, h.1, h.2.2.1⟩

end Lru
